import Mathlib

/-!
# fuse-ts: the kdenlive project file (`fuse-ts-kdenlive.c`)

A shallow embedding of the project-file cache, the write session and the
cut-mark extraction of `fuse-ts-kdenlive.c`, followed by theorems about them.

Conventions of the embedding:

* a C string or byte buffer is a `List Char`, one `Char` per byte;
* a C `int` is an `Int`; where a library function converts to `int`
  (`atoi`) the 32-bit reduction is explicit;
* the static variables of the file are the fields of `kl_state`, the
  globals it reads from `fuse-ts.h` are the fields of `fuse_ts_globals`;
* `NULL` for a buffer pointer is `none`;
* a call that ends the process (`err`) returns `none`.
-/

namespace FuseTsKdenlive

/-! ## C library -/

/-- The C locale's `isspace`. -/
def isspace (c : Char) : Bool :=
  c = ' ' || c = '\t' || c = '\n' || c = '\x0b' || c = '\x0c' || c = '\r'

/-- The C locale's `isdigit`. -/
def isdigit (c : Char) : Bool :=
  48 ≤ c.toNat && c.toNat ≤ 57

/-- Value of the leading run of decimal digits of `s` (0 when there is none). -/
def digits_value (s : List Char) : Nat :=
  (s.takeWhile isdigit).foldl (fun a c => 10 * a + (c.toNat - 48)) 0

/-- Saturation of `strtol` to the range of a 64-bit `long`. -/
def to_long (v : Int) : Int :=
  max (-(2 ^ 63)) (min v (2 ^ 63 - 1))

/-- Conversion of a `long` to a 32-bit `int` (two's complement reduction). -/
def to_int (v : Int) : Int :=
  (v + 2 ^ 31) % 2 ^ 32 - 2 ^ 31

/-- The C library's `atoi`, as `(int) strtol (s, NULL, 10)`: leading white
space is skipped, an optional sign is read, then the longest run of digits;
no digits give 0. -/
def atoi (s : List Char) : Int :=
  match s.dropWhile isspace with
  | '-' :: r => to_int (to_long (-(digits_value r : Int)))
  | '+' :: r => to_int (to_long (digits_value r))
  | r => to_int (to_long (digits_value r))

/-- The C library's `strlen`; the strings of the model hold no NUL. -/
def strlen (s : List Char) : Nat := s.length

/-! ## `fuse-ts-filebuffer.h` -/

/-- Modelled from the spec: the generic random-access memory buffer
(`filebuffer_t` of `fuse-ts-filebuffer.h`), reduced to its content. -/
structure filebuffer_t where
  content : List Char
deriving DecidableEq, Repr

/-- Modelled from the spec: `filebuffer__new`, an empty buffer. -/
def filebuffer__new : filebuffer_t := ⟨[]⟩

/-- Modelled from the spec: `filebuffer__copy`, a buffer with the same content. -/
def filebuffer__copy (fb : filebuffer_t) : filebuffer_t := ⟨fb.content⟩

/-- Modelled from the spec: `filebuffer__contentsize`. -/
def filebuffer__contentsize (fb : filebuffer_t) : Nat := fb.content.length

/-- Modelled from the spec: `filebuffer__write (fb, data, size, offset)` writes
the first `size` bytes of `data` at `offset`, growing the buffer as needed, and
returns `size`. The spec leaves the bytes of a gap open; the model fills a gap
with NUL bytes. -/
def filebuffer__write (fb : filebuffer_t) (data : List Char) (size offset : Nat) :
    filebuffer_t × Nat :=
  (⟨fb.content.take offset ++ List.replicate (offset - fb.content.length) '\x00'
      ++ data.take size ++ fb.content.drop (offset + size)⟩, size)

/-- Modelled from the spec: `filebuffer__truncate (fb, n)` cuts the content
down to its first `n` bytes. -/
def filebuffer__truncate (fb : filebuffer_t) (n : Nat) : filebuffer_t :=
  ⟨fb.content.take n⟩

/-- Modelled from the spec: `filebuffer__read_all_to_cstring`, the content as a
NUL-terminated C string; as a C string it ends at its first NUL byte. -/
def filebuffer__read_all_to_cstring (fb : filebuffer_t) : List Char :=
  fb.content.takeWhile (fun c => c != '\x00')

/-! ## Mini-XML (`mxml.h`): the node tree -/

/-- An attribute of an element (`mxml_attr_t`); the value pointer may be NULL. -/
structure mxml_attr_t where
  name : List Char
  value : Option (List Char)
deriving DecidableEq, Repr

/-- The value of a node (`mxml_value_t` with its `mxml_type_t`): an element
with its name and attributes, or a text fragment. Comments, processing
instructions and declarations are elements whose name is their text. -/
inductive mxml_value_t where
  | element (name : List Char) (attrs : List mxml_attr_t)
  | text (whitespace : Bool) (string : List Char)
deriving DecidableEq, Repr

/-- A node pointer (`mxml_node_t *`): `NULL`, or a node with its value, its
first child and its next sibling. -/
inductive mxml_node_t where
  | NULL
  | node (value : mxml_value_t) (child next : mxml_node_t)
deriving DecidableEq, Repr

/-- Mini-XML's `mxmlElementGetAttr (node, name)`: the value of the first
attribute called `name` of an element node, NULL (`none`) otherwise. -/
def mxmlElementGetAttr (node : mxml_node_t) (name : List Char) : Option (List Char) :=
  match node with
  | .node (.element _ attrs) _ _ =>
    match attrs.find? (fun a => a.name = name) with
    | some a => a.value
    | none => none
  | _ => none

/-- The test `mxmlFindElement` applies to each node it walks over: an element
called `name` which, when `attr` is given, has that attribute, with the value
`value` when that is given too. -/
def mxml_find_match (node : mxml_node_t) (name : List Char)
    (attr value : Option (List Char)) : Bool :=
  match node with
  | .node (.element n _) _ _ =>
    n = name &&
      (match attr with
       | none => true
       | some a =>
         match mxmlElementGetAttr node a with
         | none => false
         | some temp =>
           match value with
           | none => true
           | some v => v = temp)
  | _ => false

/-- The walk of `mxmlFindElement` with `MXML_DESCEND` over a node, its
descendants and its following siblings, in document order: the first node that
passes the test, or NULL. -/
def mxml_find_walk (name : List Char) (attr value : Option (List Char)) :
    mxml_node_t → mxml_node_t
  | .NULL => .NULL
  | .node v c n =>
    if mxml_find_match (.node v c n) name attr value then .node v c n
    else
      match mxml_find_walk name attr value c with
      | .NULL => mxml_find_walk name attr value n
      | r => r

/-- Mini-XML's `mxmlFindElement (node, top, name, attr, value, MXML_DESCEND)`
with `top = node`, as at every call of the source: the search starts at the
node after `node` and stays below `node`, so it runs over the descendants of
`node` in document order. -/
def mxmlFindElement (node : mxml_node_t) (name : List Char)
    (attr value : Option (List Char)) : mxml_node_t :=
  match node with
  | .NULL => .NULL
  | .node _ c _ => mxml_find_walk name attr value c

/-! ## The static variables and the globals -/

/-- The static variables of `fuse-ts-kdenlive.c`. -/
structure kl_state where
  kl_project_file_cache : Option filebuffer_t
  kl_project_file_cache_inframe : Int
  kl_project_file_cache_outframe : Int
  kl_project_file_cache_blanklen : Int
  kl_project_file_refcount : Int
  kl_writebuffer : Option filebuffer_t
deriving DecidableEq, Repr

/-- The initial values of the static variables. -/
def kl_init : kl_state :=
  { kl_project_file_cache := none
    kl_project_file_cache_inframe := -1
    kl_project_file_cache_outframe := -1
    kl_project_file_cache_blanklen := -1
    kl_project_file_refcount := 0
    kl_writebuffer := none }

/-- The globals of `fuse-ts.h` that `get_kdenlive_project_file_cache` reads. -/
structure fuse_ts_globals where
  inframe : Int
  outframe : Int
  totalframes : Int
  outbyte : Int
  mountpoint : List Char
deriving DecidableEq, Repr

/-! ## Mini-XML: loading a document from a string

A model of `mxmlLoadString (NULL, s, MXML_TEXT_CALLBACK)` of Mini-XML 2.x as a
machine that reads one character at a time. Its positions are the places of
`mxml_load_data` and `mxml_parse_element` where the next character is read.
The input is taken one `Char` per character: UTF-8 decoding is not modelled,
and of the named entities only `amp`, `lt`, `gt` and `quot` are known. -/

/-- Mini-XML's `mxml_isspace`. -/
def mxml_isspace (c : Char) : Bool :=
  c = ' ' || c = '\t' || c = '\r' || c = '\n'

/-- Mini-XML's `mxml_bad_char`: a control character other than tab, line feed
and carriage return. Reading one ends the input. -/
def mxml_bad_char (c : Char) : Bool :=
  c.toNat < 32 && c != '\n' && c != '\r' && c != '\t'

/-- A single or double quotation mark. -/
def mxml_isquote (c : Char) : Bool :=
  c.toNat = 34 || c.toNat = 39

/-- An element that is still open while loading: its name, its attributes
and the children added so far, in document order. -/
structure mxml_open_t where
  name : List Char
  attrs : List mxml_attr_t
  children : List mxml_node_t
deriving DecidableEq, Repr

/-- Where the loader is when it reads the next character. -/
inductive mxml_mode_t where
  /-- At the top of the main loop, with the `whitespace` flag and the text
  gathered in `buffer`. -/
  | text (whitespace : Bool) (buffer : List Char)
  /-- After `<`, reading the name of a tag. -/
  | tag_name (buffer : List Char)
  /-- Inside a comment; `dashes` counts the `-` that end `buffer`, 3 standing
  for three or more (as directly after `<!--`). -/
  | comment (dashes : Nat) (buffer : List Char)
  /-- Inside a CDATA section; `brackets` counts the `]` that end `buffer`, 2
  standing for two or more. -/
  | cdata (brackets : Nat) (buffer : List Char)
  /-- Inside a processing instruction; `question` tells whether `buffer` ends
  in `?` past its first character. -/
  | pi (question : Bool) (buffer : List Char)
  /-- Inside a declaration `<!...>`. -/
  | declaration (buffer : List Char)
  /-- After the name of a close tag, skipping to `>`. -/
  | close_tag
  /-- After `/` directly behind the name of an open tag. -/
  | open_slash (node : mxml_open_t)
  /-- In `mxml_parse_element`, before an attribute name. -/
  | attr_start (node : mxml_open_t)
  /-- In `mxml_parse_element`, after `/` or `?` (kept in `c`). -/
  | attr_slash (c : Char) (node : mxml_open_t)
  /-- Reading an attribute name. -/
  | attr_name (node : mxml_open_t) (name : List Char)
  /-- After an attribute name, skipping white space up to `=`. -/
  | attr_equals (node : mxml_open_t) (name : List Char)
  /-- After `=`, skipping white space up to the value. -/
  | attr_before_value (node : mxml_open_t) (name : List Char)
  /-- Reading a quoted attribute value. -/
  | attr_qvalue (quote : Char) (node : mxml_open_t) (name value : List Char)
  /-- Reading an attribute value without quotes. -/
  | attr_value (node : mxml_open_t) (name value : List Char)
  /-- In `mxml_get_entity`, reading the name of an entity that started in the
  position `back`. -/
  | entity (back : mxml_mode_t) (name : List Char)
deriving DecidableEq, Repr

/-- The state of the loader: the chain `parent`, `parent->parent`, ... of open
elements, the node `first` once it is complete and has no parent (`NULL`
before), and the position. -/
structure mxml_load_t where
  parents : List mxml_open_t
  first : mxml_node_t
  mode : mxml_mode_t
deriving DecidableEq, Repr

/-- The sibling chain of a list of children in document order: each node
gets the chain of the nodes after it as its next sibling. -/
def mxml_chain : List mxml_node_t → mxml_node_t
  | [] => .NULL
  | .node v c _ :: rest => .node v c (mxml_chain rest)
  | .NULL :: rest => mxml_chain rest

/-- An element node with the children gathered for it. -/
def mxml_close (p : mxml_open_t) : mxml_node_t :=
  .node (.element p.name p.attrs) (mxml_chain p.children) .NULL

/-- A new node `n` is added under the current parent (`mxmlNewElement`,
`mxmlNewText`); without a parent it becomes `first` when there is none yet. -/
def mxml_add (parents : List mxml_open_t) (first : mxml_node_t) (n : mxml_node_t) :
    List mxml_open_t × mxml_node_t :=
  match parents with
  | [] => ([], if first = .NULL then n else first)
  | p :: ps => ({ p with children := p.children ++ [n] } :: ps, first)

/-- The test `!parent && first`: a second root node. -/
def mxml_second_root (parents : List mxml_open_t) (first : mxml_node_t) : Bool :=
  parents.isEmpty && first != .NULL

/-- A comment or CDATA node called `name` is added; it never becomes the parent. -/
def mxml_new_leaf (parents : List mxml_open_t) (first : mxml_node_t) (name : List Char) :
    Option mxml_load_t :=
  if mxml_second_root parents first then none
  else
    let r := mxml_add parents first (.node (.element name []) .NULL .NULL)
    some ⟨r.1, r.2, .text false []⟩

/-- A processing instruction or declaration called `name` is added; without a
parent it becomes the parent of what follows. -/
def mxml_new_head (parents : List mxml_open_t) (first : mxml_node_t) (name : List Char) :
    Option mxml_load_t :=
  if mxml_second_root parents first then none
  else
    match parents with
    | [] => some ⟨[⟨name, [], []⟩], first, .text false []⟩
    | _ =>
      let r := mxml_add parents first (.node (.element name []) .NULL .NULL)
      some ⟨r.1, r.2, .text false []⟩

/-- The end of an open tag: with `ch = '/'` the element is complete, otherwise
the loader descends into it. -/
def mxml_new_element (parents : List mxml_open_t) (first : mxml_node_t)
    (node : mxml_open_t) (ch : Char) : mxml_load_t :=
  if ch = '/' then
    let r := mxml_add parents first (mxml_close node)
    ⟨r.1, r.2, .text false []⟩
  else ⟨node :: parents, first, .text false []⟩

/-- A close tag `</name>`: it has to name the parent, which is left. -/
def mxml_end_element (parents : List mxml_open_t) (first : mxml_node_t)
    (name : List Char) (next : mxml_mode_t) : Option mxml_load_t :=
  match parents with
  | [] => none
  | p :: ps =>
    if p.name = name then
      let r := mxml_add ps first (mxml_close p)
      some ⟨r.1, r.2, next⟩
    else none

/-- The name of a tag is complete and `ch` is the character read last. -/
def mxml_tag (parents : List mxml_open_t) (first : mxml_node_t)
    (buffer : List Char) (ch : Char) : Option mxml_load_t :=
  if buffer = ['!', '-', '-'] then some ⟨parents, first, .comment 3 buffer⟩
  else if buffer = ['!', '[', 'C', 'D', 'A', 'T', 'A', '['] then
    some ⟨parents, first, .cdata 0 buffer⟩
  else if buffer.head? = some '?' then some ⟨parents, first, .pi false buffer⟩
  else if buffer.head? = some '!' then
    if ch = '>' then mxml_new_head parents first buffer
    else if ch = '&' then some ⟨parents, first, .entity (.declaration buffer) []⟩
    else some ⟨parents, first, .declaration (buffer ++ [ch])⟩
  else if buffer.head? = some '/' then
    mxml_end_element parents first buffer.tail
      (if ch = '>' then .text false [] else .close_tag)
  else if mxml_second_root parents first then none
  else if mxml_isspace ch then some ⟨parents, first, .attr_start ⟨buffer, [], []⟩⟩
  else if ch = '/' then some ⟨parents, first, .open_slash ⟨buffer, [], []⟩⟩
  else some (mxml_new_element parents first ⟨buffer, [], []⟩ ch)

/-- The value of a hexadecimal digit, if `c` is one. -/
def mxml_hex_digit (c : Char) : Option Nat :=
  if 48 ≤ c.toNat && c.toNat ≤ 57 then some (c.toNat - 48)
  else if 97 ≤ c.toNat && c.toNat ≤ 102 then some (c.toNat - 87)
  else if 65 ≤ c.toNat && c.toNat ≤ 70 then some (c.toNat - 55)
  else none

/-- Value of the leading run of hexadecimal digits of `s`. -/
def mxml_hex_value : List Char → Nat → Nat
  | [], acc => acc
  | c :: r, acc =>
    match mxml_hex_digit c with
    | some d => mxml_hex_value r (16 * acc + d)
    | none => acc

/-- The character an entity name stands for (`mxml_get_entity` after the
name is read): a number `#...` or `#x...`, or one of the known names. -/
def mxml_entity_value (name : List Char) : Option Char :=
  let ch : Option Nat :=
    match name with
    | '#' :: 'x' :: r => some (mxml_hex_value r 0)
    | '#' :: r => some (digits_value r)
    | _ =>
      if name = ['a', 'm', 'p'] then some 38
      else if name = ['l', 't'] then some 60
      else if name = ['g', 't'] then some 62
      else if name = ['q', 'u', 'o', 't'] then some 34
      else none
  match ch with
  | none => none
  | some v => if mxml_bad_char (Char.ofNat v) then none else some (Char.ofNat v)

/-- The character `ch` of an entity is added to the buffer of the position the
entity started in. -/
def mxml_add_char (back : mxml_mode_t) (ch : Char) : Option mxml_mode_t :=
  match back with
  | .text w b => some (.text w (b ++ [ch]))
  | .tag_name b => some (.tag_name (b ++ [ch]))
  | .declaration b => some (.declaration (b ++ [ch]))
  | .attr_name n a => some (.attr_name n (a ++ [ch]))
  | .attr_qvalue q n a v => some (.attr_qvalue q n a (v ++ [ch]))
  | .attr_value n a v => some (.attr_value n a (v ++ [ch]))
  | _ => none

/-- An attribute value is complete (`mxmlElementSetAttr`), and `ch` ended it:
the end character is checked as at the bottom of the loop of
`mxml_parse_element`. -/
def mxml_attr_done (parents : List mxml_open_t) (first : mxml_node_t)
    (node : mxml_open_t) (name value : List Char) (ch : Char) : mxml_load_t :=
  let node : mxml_open_t := { node with attrs := node.attrs ++ [⟨name, some value⟩] }
  if ch = '/' || ch = '?' then ⟨parents, first, .attr_slash ch node⟩
  else if ch = '>' then mxml_new_element parents first node ch
  else ⟨parents, first, .attr_start node⟩

/-- An attribute name is complete and `ch` ended it: a name the element has
already is an error, then `=` is looked for. -/
def mxml_attr_named (parents : List mxml_open_t) (first : mxml_node_t)
    (node : mxml_open_t) (name : List Char) (ch : Char) : Option mxml_load_t :=
  if (node.attrs.find? (fun a => a.name = name)).isSome then none
  else if mxml_isspace ch then some ⟨parents, first, .attr_equals node name⟩
  else if ch = '=' then some ⟨parents, first, .attr_before_value node name⟩
  else none

/-- One character is read; `none` is an error (the loader returns NULL). -/
def mxml_step (st : mxml_load_t) (ch : Char) : Option mxml_load_t :=
  match st.mode with
  | .text w b =>
    if ch = '<' then
      let r := if b.isEmpty then (st.parents, st.first)
               else mxml_add st.parents st.first (.node (.text w b) .NULL .NULL)
      let w := if b.isEmpty then w else false
      let r := if w && !r.1.isEmpty
               then mxml_add r.1 r.2 (.node (.text true []) .NULL .NULL) else r
      some ⟨r.1, r.2, .tag_name []⟩
    else if mxml_isspace ch then
      if b.isEmpty then some ⟨st.parents, st.first, .text true []⟩
      else
        let r := mxml_add st.parents st.first (.node (.text w b) .NULL .NULL)
        some ⟨r.1, r.2, .text true []⟩
    else if ch = '&' then some ⟨st.parents, st.first, .entity (.text w b) []⟩
    else some ⟨st.parents, st.first, .text w (b ++ [ch])⟩
  | .tag_name b =>
    if mxml_isspace ch || ch = '>' || (ch = '/' && !b.isEmpty) then
      mxml_tag st.parents st.first b ch
    else if ch = '<' then none
    else if ch = '&' then some ⟨st.parents, st.first, .entity (.tag_name b) []⟩
    else if b.isEmpty && ch = '?' || b = ['!', '-'] && ch = '-'
        || b = ['!', '[', 'C', 'D', 'A', 'T', 'A'] && ch = '[' then
      mxml_tag st.parents st.first (b ++ [ch]) ch
    else some ⟨st.parents, st.first, .tag_name (b ++ [ch])⟩
  | .comment k b =>
    if ch = '>' then
      if k = 2 then mxml_new_leaf st.parents st.first b
      else some ⟨st.parents, st.first, .comment 0 (b ++ [ch])⟩
    else if ch = '-' then
      some ⟨st.parents, st.first, .comment (if k < 2 then k + 1 else 3) (b ++ [ch])⟩
    else some ⟨st.parents, st.first, .comment 0 (b ++ [ch])⟩
  | .cdata k b =>
    if ch = '>' then
      if k = 2 then mxml_new_leaf st.parents st.first b
      else some ⟨st.parents, st.first, .cdata 0 (b ++ [ch])⟩
    else if ch = ']' then
      some ⟨st.parents, st.first, .cdata (if k < 1 then k + 1 else 2) (b ++ [ch])⟩
    else some ⟨st.parents, st.first, .cdata 0 (b ++ [ch])⟩
  | .pi q b =>
    if ch = '>' && q then mxml_new_head st.parents st.first b
    else some ⟨st.parents, st.first, .pi (ch = '?') (b ++ [ch])⟩
  | .declaration b =>
    if ch = '>' then mxml_new_head st.parents st.first b
    else if ch = '&' then some ⟨st.parents, st.first, .entity (.declaration b) []⟩
    else some ⟨st.parents, st.first, .declaration (b ++ [ch])⟩
  | .close_tag =>
    if ch = '>' then some ⟨st.parents, st.first, .text false []⟩
    else some ⟨st.parents, st.first, .close_tag⟩
  | .open_slash node =>
    if ch = '>' then some (mxml_new_element st.parents st.first node '/')
    else none
  | .attr_start node =>
    if mxml_isspace ch then some ⟨st.parents, st.first, .attr_start node⟩
    else if ch = '/' || ch = '?' then some ⟨st.parents, st.first, .attr_slash ch node⟩
    else if ch = '<' then none
    else if ch = '>' then some (mxml_new_element st.parents st.first node ch)
    else if mxml_isquote ch then none
    else some ⟨st.parents, st.first, .attr_name node [ch]⟩
  | .attr_slash c node =>
    if ch = '>' then some (mxml_new_element st.parents st.first node c)
    else none
  | .attr_name node a =>
    if mxml_isspace ch || ch = '=' || ch = '/' || ch = '>' || ch = '?' then
      mxml_attr_named st.parents st.first node a ch
    else if ch = '&' then some ⟨st.parents, st.first, .entity (.attr_name node a) []⟩
    else some ⟨st.parents, st.first, .attr_name node (a ++ [ch])⟩
  | .attr_equals node a =>
    if mxml_isspace ch then some ⟨st.parents, st.first, .attr_equals node a⟩
    else if ch = '=' then some ⟨st.parents, st.first, .attr_before_value node a⟩
    else none
  | .attr_before_value node a =>
    if mxml_isspace ch then some ⟨st.parents, st.first, .attr_before_value node a⟩
    else if mxml_isquote ch then some ⟨st.parents, st.first, .attr_qvalue ch node a []⟩
    else some ⟨st.parents, st.first, .attr_value node a [ch]⟩
  | .attr_qvalue q node a v =>
    if ch = q then some (mxml_attr_done st.parents st.first node a v ch)
    else if ch = '&' then some ⟨st.parents, st.first, .entity (.attr_qvalue q node a v) []⟩
    else some ⟨st.parents, st.first, .attr_qvalue q node a (v ++ [ch])⟩
  | .attr_value node a v =>
    if mxml_isspace ch || ch = '=' || ch = '/' || ch = '>' then
      some (mxml_attr_done st.parents st.first node a v ch)
    else if ch = '&' then some ⟨st.parents, st.first, .entity (.attr_value node a v) []⟩
    else some ⟨st.parents, st.first, .attr_value node a (v ++ [ch])⟩
  | .entity back name =>
    if ch.toNat ≤ 126 && (ch.isAlphanum || ch = '#') then
      if name.length < 63 then some ⟨st.parents, st.first, .entity back (name ++ [ch])⟩
      else none
    else if ch = ';' then
      match mxml_entity_value name with
      | none => none
      | some c =>
        match mxml_add_char back c with
        | none => none
        | some m => some ⟨st.parents, st.first, m⟩
    else none

/-- The characters of `s` are read in order. -/
def mxml_run (st : mxml_load_t) (s : List Char) : Option mxml_load_t :=
  match s with
  | [] => some st
  | ch :: r =>
    match mxml_step st ch with
    | none => none
    | some st1 => mxml_run st1 r

/-- The end of the input is reached in the position of `st`: inside a tag
name the tag is still handled, inside anything else but text the input ends
early, which is an error. -/
def mxml_eof (st : mxml_load_t) : Option (List mxml_open_t × mxml_node_t) :=
  match st.mode with
  | .text _ _ => some (st.parents, st.first)
  | .close_tag => some (st.parents, st.first)
  | .tag_name b =>
    if b.head? = some '!' then none
    else if b.head? = some '/' then
      match mxml_end_element st.parents st.first b.tail .close_tag with
      | none => none
      | some st1 => some (st1.parents, st1.first)
    else if mxml_second_root st.parents st.first then none
    else some (mxml_add st.parents st.first (mxml_close ⟨b, [], []⟩))
  | _ => none

/-- The node returned after the loop ("make sure we closed everything"): the
parent if it is the root, `first` without a parent, NULL when an element
below the root is still open. -/
def mxml_result (parents : List mxml_open_t) (first : mxml_node_t) : mxml_node_t :=
  match parents with
  | [] => first
  | [root] => mxml_close root
  | _ => .NULL

/-- Mini-XML's `mxmlLoadString (NULL, s, MXML_TEXT_CALLBACK)`: the top node of
the document in `s`, NULL on error. -/
def mxmlLoadString (s : List Char) : mxml_node_t :=
  match mxml_run ⟨[], .NULL, .text false []⟩ (s.takeWhile (fun c => !mxml_bad_char c)) with
  | none => .NULL
  | some st =>
    match mxml_eof st with
    | none => .NULL
    | some r => mxml_result r.1 r.2

/-! ## `fuse-ts-tools.h` and `printf` -/

/-- Modelled from the spec: `merge_strs (n, ...)` of `fuse-ts-tools.h`, the
concatenation of its string arguments. -/
def merge_strs (parts : List (List Char)) : List Char := parts.flatten

/-- The decimal digits of `n`, the most significant first; `fuel` bounds the
number of digits. -/
def fmt_nat_fuel : Nat → Nat → List Char
  | 0, _ => []
  | fuel + 1, n =>
    if n < 10 then [Char.ofNat (48 + n)]
    else fmt_nat_fuel fuel (n / 10) ++ [Char.ofNat (48 + n % 10)]

/-- The decimal digits of a natural number, as `printf` writes them. -/
def fmt_nat (n : Nat) : List Char := fmt_nat_fuel (n + 1) n

/-- The conversion `%d` (and `%ld`) of `printf`. -/
def fmt_d (i : Int) : List Char :=
  if i < 0 then '-' :: fmt_nat i.natAbs else fmt_nat i.natAbs

/-- An argument of `printf`. -/
inductive printf_arg where
  | int (v : Int)
  | str (s : List Char)
deriving DecidableEq, Repr

/-- The text a conversion produces for the argument at position `n`. -/
def fmt_arg (args : List printf_arg) (n : Char) : List Char :=
  match args.get? (n.toNat - 49) with
  | some (.int v) => fmt_d v
  | some (.str s) => s
  | none => []

/-- The complete output of `printf` for a format with the positional
conversions `%N$d`, `%N$ld` and `%N$s`, the ones `kl_template` uses. -/
def format : List Char → List printf_arg → List Char
  | '%' :: n :: '$' :: 'l' :: 'd' :: rest, args => fmt_arg args n ++ format rest args
  | '%' :: n :: '$' :: 'd' :: rest, args => fmt_arg args n ++ format rest args
  | '%' :: n :: '$' :: 's' :: rest, args => fmt_arg args n ++ format rest args
  | c :: rest, args => c :: format rest args
  | [], _ => []

/-- The C library's `snprintf (buf, n, fmt, ...)`: the bytes written to `buf`
(at most `n - 1` characters of the output and a terminating NUL) and the
value returned (the length of the complete output). -/
def snprintf (n : Nat) (fmt : List Char) (args : List printf_arg) : List Char × Nat :=
  let out := format fmt args
  (if n = 0 then [] else out.take (n - 1) ++ ['\x00'], out.length)

/-! ## `fuse-ts-kdenlive.c` -/

/-- The lines of the string literal `kl_template` (adjacent literals of the C
source, in order); `PRId64` is `ld`, as on an LP64 Linux. -/
def kl_template_lines : List String := [
  "<?xml version='1.0' encoding='utf-8'?>",
  "<mlt title=\"Anonymous Submission\" root=\"/tmp\" version=\"0.8.8\">",
  " <!-- %1$d => inframe,  %2$d => frames, %3$d => frames - 1  ",
  "  %4$ld => filesize, %5$s => filename with path ",
  "  %6$d => outframe, %7$d => blanktime --> ",
  " <producer in=\"0\" out=\"500\" id=\"black\">",
  "  <property name=\"mlt_type\">producer</property>",
  "  <property name=\"aspect_ratio\">0</property>",
  "  <property name=\"length\">15000</property>",
  "  <property name=\"eof\">pause</property>",
  "  <property name=\"resource\">black</property>",
  "  <property name=\"mlt_service\">colour</property>",
  " </producer>",
  " <playlist id=\"black_track\">",
  "  <entry in=\"0\" out=\"7000\" producer=\"black\"/>",
  " </playlist>",
  " <playlist id=\"playlist1\"/>",
  " <playlist id=\"playlist2\"/>",
  " <playlist id=\"playlist3\"/>",
  " <playlist id=\"playlist4\"/>",
  " <producer in=\"0\" out=\"%3$d\" id=\"1\">",
  "  <property name=\"mlt_type\">producer</property>",
  "  <property name=\"aspect_ratio\">1.422222</property>",
  "  <property name=\"length\">%2$d</property>",
  "  <property name=\"eof\">pause</property>",
  "  <property name=\"resource\">%5$s</property>",
  "  <property name=\"mlt_service\">avformat</property>",
  "  <property name=\"source_fps\">25.000000</property>",
  " </producer>",
  " <playlist id=\"playlist5\">",
  "  <blank length=\"%7$d\"/>",
  "  <entry in=\"%1$d\" out=\"%6$d\" producer=\"1\"/>",
  " </playlist>",
  " <tractor title=\"Anonymous Submission\" global_feed=\"1\" in=\"0\" out=\"%3$d\" id=\"maintractor\">",
  "  <track producer=\"black_track\"/>",
  "  <track hide=\"video\" producer=\"playlist1\"/>",
  "  <track hide=\"video\" producer=\"playlist2\"/>",
  "  <track producer=\"playlist3\"/>",
  "  <track producer=\"playlist4\"/>",
  "  <track producer=\"playlist5\"/>",
  "  <transition in=\"0\" out=\"0\" id=\"transition0\">",
  "   <property name=\"a_track\">1</property>",
  "   <property name=\"b_track\">2</property>",
  "   <property name=\"mlt_type\">transition</property>",
  "   <property name=\"mlt_service\">mix</property>",
  "   <property name=\"always_active\">1</property>",
  "   <property name=\"combine\">1</property>",
  "   <property name=\"internal_added\">237</property>",
  "  </transition>",
  "  <transition in=\"0\" out=\"0\" id=\"transition1\">",
  "   <property name=\"a_track\">1</property>",
  "   <property name=\"b_track\">3</property>",
  "   <property name=\"mlt_type\">transition</property>",
  "   <property name=\"mlt_service\">mix</property>",
  "   <property name=\"always_active\">1</property>",
  "   <property name=\"combine\">1</property>",
  "   <property name=\"internal_added\">237</property>",
  "  </transition>",
  "  <transition in=\"0\" out=\"0\" id=\"transition2\">",
  "   <property name=\"a_track\">1</property>",
  "   <property name=\"b_track\">4</property>",
  "   <property name=\"mlt_type\">transition</property>",
  "   <property name=\"mlt_service\">mix</property>",
  "   <property name=\"always_active\">1</property>",
  "   <property name=\"combine\">1</property>",
  "   <property name=\"internal_added\">237</property>",
  "  </transition>",
  "  <transition in=\"0\" out=\"0\" id=\"transition3\">",
  "   <property name=\"a_track\">1</property>",
  "   <property name=\"b_track\">5</property>",
  "   <property name=\"mlt_type\">transition</property>",
  "   <property name=\"mlt_service\">mix</property>",
  "   <property name=\"always_active\">1</property>",
  "   <property name=\"combine\">1</property>",
  "   <property name=\"internal_added\">237</property>",
  "  </transition>",
  " </tractor>",
  " <kdenlivedoc profile=\"hdv_1080_50i\" kdenliveversion=\"0.9.0\" version=\"0.88\" projectfolder=\"/tmp/kdenlive\">",
  "  <documentproperties zonein=\"0\" zoneout=\"100\" zoom=\"8\" verticalzoom=\"1\" position=\"0\"/>",
  "  <profileinfo width=\"1440\" display_aspect_den=\"9\" frame_rate_den=\"1\" description=\"HDV 1440x1080i 25 fps\" height=\"1080\" frame_rate_num=\"25\" display_aspect_num=\"16\" progressive=\"0\" sample_aspect_num=\"4\" sample_aspect_den=\"3\"/>",
  "  <tracksinfo>",
  "   <trackinfo blind=\"1\" mute=\"0\" locked=\"0\" trackname=\"Audio 2\" type=\"audio\"/>",
  "   <trackinfo blind=\"1\" mute=\"0\" locked=\"0\" trackname=\"Audio 1\" type=\"audio\"/>",
  "   <trackinfo blind=\"0\" mute=\"0\" locked=\"0\" trackname=\"Video 3\"/>",
  "   <trackinfo blind=\"0\" mute=\"0\" locked=\"0\" trackname=\"Video 2\"/>",
  "   <trackinfo blind=\"0\" mute=\"0\" locked=\"0\" trackname=\"Video 1\"/>",
  "  </tracksinfo>",
  "  <kdenlive_producer audio_max=\"2\" id=\"1\" default_video=\"0\" fps=\"25.000000\" name=\"uncut.ts\" videocodec=\"H.264 / AVC / MPEG-4 AVC / MPEG-4 part 10\" resource=\"%5$s\" default_audio=\"1\" audiocodec=\"Advanced Audio Coding\" duration=\"%2$d\" aspect_ratio=\"1.422222\" channels=\"2\" frequency=\"48000\" video_max=\"0\" type=\"3\" frame_size=\"720x576\" file_size=\"%4$ld\" />",
  "  <markers/>",
  "  <groups/>",
  " </kdenlivedoc>",
  "</mlt>"]
/-- The format string `kl_template`. -/
@[irreducible] def kl_template : List Char := (kl_template_lines.map String.data).flatten

/-- The function `get_kdenlive_project_file_cache (filename, num_frames,
blanklen)`: the state after the call; the pointer it returns is
`kl_project_file_cache` of that state. `none` is the exit through `err (124)`.
`malloc` is taken to succeed. -/
def get_kdenlive_project_file_cache (g : fuse_ts_globals) (s : kl_state)
    (filename : List Char) (num_frames blanklen : Int) : Option kl_state :=
  if s.kl_project_file_cache ≠ none ∧ s.kl_project_file_cache_inframe = g.inframe
      ∧ s.kl_project_file_cache_outframe = g.outframe
      ∧ s.kl_project_file_cache_blanklen = blanklen then
    some s
  else
    let _outframe := if g.outframe < 0 then g.totalframes else g.outframe
    let _inframe := g.inframe
    let t := merge_strs [g.mountpoint, ['/'], filename]
    let size := strlen kl_template * 2
    let cache :=
      match s.kl_project_file_cache with
      | none => filebuffer__new
      | some c => c
    let r := snprintf (size - 1) kl_template
      [.int _inframe, .int num_frames, .int (num_frames - 1), .int g.outbyte, .str t,
       .int _outframe, .int blanklen]
    let temp := r.1
    let len := r.2
    if len ≥ size then none
    else
      let cache := (filebuffer__write cache temp len 0).1
      let cache := filebuffer__truncate cache len
      some { s with
        kl_project_file_cache := some cache
        kl_project_file_cache_inframe := g.inframe
        kl_project_file_cache_outframe := g.outframe
        kl_project_file_cache_blanklen := blanklen }

/-- The function `open_kdenlive_project_file (movie_path, frames, blanklen,
truncate)`; `none` when the rendering it asks for exits. -/
def open_kdenlive_project_file (g : fuse_ts_globals) (s : kl_state)
    (movie_path : List Char) (frames blanklen : Int) (truncate : Bool) : Option kl_state :=
  let s := { s with kl_project_file_refcount := s.kl_project_file_refcount + 1 }
  if s.kl_project_file_refcount > 1 then some s
  else
    match s.kl_writebuffer with
    | none =>
      if truncate then some { s with kl_writebuffer := some filebuffer__new }
      else
        match get_kdenlive_project_file_cache g s movie_path frames blanklen with
        | none => none
        | some s1 =>
          match s1.kl_project_file_cache with
          | none => none
          | some c => some { s1 with kl_writebuffer := some (filebuffer__copy c) }
    | some wb =>
      if truncate then some { s with kl_writebuffer := some (filebuffer__truncate wb 0) }
      else some s

/-- The function `truncate_kdenlive_project_file ()`. -/
def truncate_kdenlive_project_file (s : kl_state) : kl_state :=
  match s.kl_writebuffer with
  | some wb => { s with kl_writebuffer := some (filebuffer__truncate wb 0) }
  | none => s

/-- The value `-EACCES` (`EACCES` is 13) as the function returns it: converted
to its return type `size_t` (64 bits) it is 2^64 - 13. -/
def EACCES_neg : Nat := 2 ^ 64 - 13

/-- The function `write_kdenlive_project_file (buffer, size, offset)`: the
state after the call and the value returned, a `size_t`. -/
def write_kdenlive_project_file (s : kl_state) (buffer : List Char) (size offset : Nat) :
    kl_state × Nat :=
  match s.kl_writebuffer with
  | none => (s, EACCES_neg)
  | some wb =>
    let r := filebuffer__write wb buffer size offset
    ({ s with kl_writebuffer := some r.1 }, r.2)

/-- The function `close_kdenlive_project_file ()`. -/
def close_kdenlive_project_file (s : kl_state) : kl_state :=
  let s := { s with kl_project_file_refcount := s.kl_project_file_refcount - 1 }
  if s.kl_project_file_refcount > 0 then s
  else
    match s.kl_writebuffer with
    | some _ => { s with kl_writebuffer := none }
    | none => s

/-- What `find_cutmarks_in_kdenlive_project_file` leaves behind: the value
returned and the three `int`s its arguments point to. -/
structure cutmarks_t where
  ret : Int
  inframe : Int
  outframe : Int
  blanklen : Int
deriving DecidableEq, Repr

/-- The function `find_cutmarks_in_kdenlive_project_file (inframe, outframe,
blanklen)`. The XML loader `mxmlLoadString` of Mini-XML is a parameter;
`inframe`, `outframe` and `blanklen` are the values the three pointers point
to before the call. -/
def find_cutmarks_in_kdenlive_project_file (load : List Char → mxml_node_t)
    (s : kl_state) (inframe outframe blanklen : Int) : cutmarks_t :=
  match s.kl_writebuffer with
  | none => ⟨100, inframe, outframe, blanklen⟩
  | some wb =>
    let temp := filebuffer__read_all_to_cstring wb
    let xmldoc := load temp
    match xmldoc with
    | .NULL => ⟨1, inframe, outframe, blanklen⟩
    | _ =>
      let node := mxmlFindElement xmldoc "playlist".data (some "id".data) (some "playlist5".data)
      match node with
      | .NULL => ⟨2, inframe, outframe, blanklen⟩
      | _ =>
        let subnode := mxmlFindElement node "blank".data none none
        let blank : Int :=
          match subnode with
          | .NULL => 0
          | _ =>
            match mxmlElementGetAttr subnode "length".data with
            | none => 0
            | some strblank =>
              let blank := atoi strblank
              let blank := if blank < 0 then 0 else blank
              if blank > 45000 then 45000 else blank
        let node := mxmlFindElement node "entry".data (some "producer".data) (some "1".data)
        match node with
        | .NULL => ⟨3, inframe, outframe, blanklen⟩
        | _ =>
          let strin := mxmlElementGetAttr node "in".data
          let strout := mxmlElementGetAttr node "out".data
          match strin with
          | none => ⟨4, inframe, outframe, blanklen⟩
          | some strin =>
            match strout with
            | none => ⟨5, inframe, outframe, blanklen⟩
            | some strout =>
              let i := atoi strin
              let o := atoi strout
              if 0 > i then ⟨6, inframe, outframe, blanklen⟩
              else if 0 ≥ o then ⟨7, inframe, outframe, blanklen⟩
              else ⟨0, i, o, blank⟩

/-! ## Sequences of calls on the write session -/

/-- A call of one of the four session functions, with its arguments; an
`open` comes with the globals at the time of the call. -/
inductive kl_call where
  | open (g : fuse_ts_globals) (movie_path : List Char) (frames blanklen : Int)
      (truncate : Bool)
  | write (buffer : List Char) (size offset : Nat)
  | truncate
  | close
deriving DecidableEq, Repr

/-- The state after one call; `none` when the process exits in it. -/
def kl_call.apply (s : kl_state) : kl_call → Option kl_state
  | .open g movie_path frames blanklen trunc =>
    open_kdenlive_project_file g s movie_path frames blanklen trunc
  | .write buffer size offset => some (write_kdenlive_project_file s buffer size offset).1
  | .truncate => some (truncate_kdenlive_project_file s)
  | .close => some (close_kdenlive_project_file s)

/-- The state after a sequence of calls. -/
def kl_run (s : kl_state) : List kl_call → Option kl_state
  | [] => some s
  | c :: cs =>
    match c.apply s with
    | none => none
    | some s1 => kl_run s1 cs

/-- The number of `open` calls in a sequence. -/
def kl_opens (cs : List kl_call) : Nat :=
  (cs.filter (fun c => match c with | .open _ _ _ _ _ => true | _ => false)).length

/-- The number of `close` calls in a sequence. -/
def kl_closes (cs : List kl_call) : Nat :=
  (cs.filter (fun c => match c with | .close => true | _ => false)).length

/-! ## Notions used to state the properties -/

/-- The nodes of a sibling chain with all their descendants, in document order. -/
def mxml_walk : mxml_node_t → List mxml_node_t
  | .NULL => []
  | .node v c n => .node v c n :: (mxml_walk c ++ mxml_walk n)

/-- The nodes below `node`, in document order. -/
def mxml_descendants (node : mxml_node_t) : List mxml_node_t :=
  match node with
  | .NULL => []
  | .node _ c _ => mxml_walk c

/-- No prefix of the sequence holds more `close` calls than `open` calls. -/
def kl_balanced (cs : List kl_call) : Prop :=
  ∀ p ∈ cs.inits, kl_closes p ≤ kl_opens p

/-- The string has no leading integer for `atoi`: after white space and an
optional sign no digit follows. -/
def no_leading_integer (s : List Char) : Prop :=
  match s.dropWhile isspace with
  | '-' :: r => ∀ c ∈ r.head?, isdigit c = false
  | '+' :: r => ∀ c ∈ r.head?, isdigit c = false
  | r => ∀ c ∈ r.head?, isdigit c = false

/-- The count of `-` at the end of a comment buffer (3 for three or more)
after the characters of `s` are added to a buffer whose count is `k`. -/
def mxml_dashes (k : Nat) (s : List Char) : Nat :=
  s.foldl (fun k c => if c = '-' then (if k < 2 then k + 1 else 3) else 0) k

/-- The text nodes the loader makes of the text `s` that ends at a `<`, when
it starts with the flag `w` and the buffer `b`: one node for each run of
characters without white space, and an empty one for white space directly
before the `<`. -/
def mxml_words (w : Bool) (b : List Char) : List Char → List mxml_node_t
  | [] =>
    if b.isEmpty then (if w then [.node (.text true []) .NULL .NULL] else [])
    else [.node (.text w b) .NULL .NULL]
  | c :: cs =>
    if mxml_isspace c then
      if b.isEmpty then mxml_words true [] cs
      else .node (.text w b) .NULL .NULL :: mxml_words true [] cs
    else mxml_words w (b ++ [c]) cs

/-- A character that stands for itself wherever the descriptor puts it: an
ASCII character that is not a control character other than tab, line feed and
carriage return, and not one of `<`, `>`, `&` and the double quotation mark. -/
def kl_plain (c : Char) : Bool :=
  !mxml_bad_char c && c.toNat < 128 && c != '<' && c != '>' && c != '&' && c.toNat != 34

/-- A text made of such characters. -/
def kl_plain_text (s : List Char) : Prop := ∀ c ∈ s, kl_plain c = true

/-- The descriptor with the seven texts put in for the conversions 1 to 7. -/
def kl_text (v1 v2 v3 v4 v5 v6 v7 : List Char) : List Char :=
  format kl_template [.str v1, .str v2, .str v3, .str v4, .str v5, .str v6, .str v7]

/-- The state of an open session whose write buffer holds `text`. -/
def kl_written (text : List Char) : kl_state :=
  { kl_init with kl_project_file_refcount := 1, kl_writebuffer := some ⟨text⟩ }

/-- A saved document with the playlist "playlist5": its body is `inner`. -/
def kl_saved (inner : String) : List Char :=
  ("<?xml version='1.0'?><mlt><playlist id=\"playlist5\">" ++ inner ++ "</playlist></mlt>").data

/-- The values of an `int`. -/
def is_int (v : Int) : Prop := -(2 ^ 31) ≤ v ∧ v < 2 ^ 31

/-- A format in which every `%` starts one of the conversions `%N$d`, `%N$ld`
and `%N$s`. -/
def fmt_ok : List Char → Bool
  | '%' :: _ :: '$' :: 'l' :: 'd' :: rest => fmt_ok rest
  | '%' :: _ :: '$' :: 'd' :: rest => fmt_ok rest
  | '%' :: _ :: '$' :: 's' :: rest => fmt_ok rest
  | '%' :: _ => false
  | _ :: rest => fmt_ok rest
  | [] => true

/-- The argument as `%s` would take it, for a conversion that writes the same
text. -/
def printf_arg.text : printf_arg → printf_arg
  | .int v => .str (fmt_d v)
  | .str s => .str s

/-- The descriptor without its last line, with the seven texts put in. -/
def kl_head (v1 v2 v3 v4 v5 v6 v7 : List Char) : List Char :=
  ((kl_template_lines.dropLast.map String.data).map (fun l =>
    format l [.str v1, .str v2, .str v3, .str v4, .str v5, .str v6, .str v7])).flatten

/-- The top node the loader returns when the input ends with `e`, read from
the position `st`. -/
def mxml_tree (st : mxml_load_t) (e : List Char) : mxml_node_t :=
  match mxml_run st e with
  | none => .NULL
  | some st1 =>
    match mxml_eof st1 with
    | none => .NULL
    | some r => mxml_result r.1 r.2

/-- What `find_cutmarks_in_kdenlive_project_file` looks up in a document, all
found: the playlist "playlist5", its entry for producer "1" with the
attributes `in` and `out`, and its blank element with the attribute `length`. -/
def kl_found (doc : mxml_node_t) (strin strout strblank : List Char) : Prop :=
  mxmlFindElement doc "playlist".data (some "id".data) (some "playlist5".data) ≠ .NULL ∧
  mxmlFindElement (mxmlFindElement doc "playlist".data (some "id".data)
    (some "playlist5".data)) "entry".data (some "producer".data) (some "1".data) ≠ .NULL ∧
  mxmlElementGetAttr (mxmlFindElement (mxmlFindElement doc "playlist".data (some "id".data)
    (some "playlist5".data)) "entry".data (some "producer".data) (some "1".data)) "in".data
      = some strin ∧
  mxmlElementGetAttr (mxmlFindElement (mxmlFindElement doc "playlist".data (some "id".data)
    (some "playlist5".data)) "entry".data (some "producer".data) (some "1".data)) "out".data
      = some strout ∧
  mxmlElementGetAttr (mxmlFindElement (mxmlFindElement doc "playlist".data (some "id".data)
    (some "playlist5".data)) "blank".data none none) "length".data = some strblank

/-- The round trip: the descriptor is rendered for the first time, a session
is opened on it without truncation, and the cut marks are extracted from the
unedited session; `none` when the rendering exits. -/
def kl_round_trip (g : fuse_ts_globals) (filename movie_path : List Char)
    (num_frames frames blanklen a b c : Int) : Option cutmarks_t :=
  match get_kdenlive_project_file_cache g kl_init filename num_frames blanklen with
  | none => none
  | some s1 =>
    match open_kdenlive_project_file g s1 movie_path frames blanklen false with
    | none => none
    | some s2 => some (find_cutmarks_in_kdenlive_project_file mxmlLoadString s2 a b c)

/-- The test for a cache hit in `get_kdenlive_project_file_cache`. -/
def kl_hit (g : fuse_ts_globals) (s : kl_state) (blanklen : Int) : Prop :=
  s.kl_project_file_cache ≠ none ∧ s.kl_project_file_cache_inframe = g.inframe
    ∧ s.kl_project_file_cache_outframe = g.outframe
    ∧ s.kl_project_file_cache_blanklen = blanklen

/-- The arguments `get_kdenlive_project_file_cache` passes to `snprintf`
after the format. -/
def kl_args (g : fuse_ts_globals) (filename : List Char) (num_frames blanklen : Int) :
    List printf_arg :=
  [.int g.inframe, .int num_frames, .int (num_frames - 1), .int g.outbyte,
   .str (merge_strs [g.mountpoint, ['/'], filename]),
   .int (if g.outframe < 0 then g.totalframes else g.outframe), .int blanklen]

/-- The complete formatted template: the output `snprintf` would write into
a buffer that is large enough. -/
def kl_render (g : fuse_ts_globals) (filename : List Char) (num_frames blanklen : Int) :
    List Char :=
  format kl_template (kl_args g filename num_frames blanklen)

/-- The bytes a rendering stores in the cache: the first `len` bytes of the
buffer `temp` that `snprintf` filled, `len` being the value it returned. -/
def kl_stored (g : fuse_ts_globals) (filename : List Char) (num_frames blanklen : Int) :
    List Char :=
  (snprintf (strlen kl_template * 2 - 1) kl_template
    (kl_args g filename num_frames blanklen)).1.take
      (kl_render g filename num_frames blanklen).length

/-- The text of the playlist with id "playlist5" in the descriptor (four
adjacent literals of `kl_template`), with texts in the place of the
conversions for the blank length, the in point and the out point. -/
def kl_playlist5 (strblank strin strout : List Char) : List Char :=
  " <playlist id=\"playlist5\">  <blank length=\"".data ++ strblank
    ++ "\"/>  <entry in=\"".data ++ strin ++ "\" out=\"".data ++ strout
    ++ "\" producer=\"1\"/> </playlist>".data

/-- The descriptor up to the playlist with id "playlist5". -/
def kl_before (args : List printf_arg) : List Char :=
  format ((kl_template_lines.take 29).map String.data).flatten args

/-- The descriptor after the playlist with id "playlist5", without its last
line. -/
def kl_after (args : List printf_arg) : List Char :=
  format (((kl_template_lines.drop 33).dropLast).map String.data).flatten args

/-! # Theorems -/

/-! ## `atoi` and `%d` -/

theorem to_int_to_long (v : Int) (h : is_int v) : to_int (to_long v) = v := by
  unfold is_int at h
  unfold to_int to_long
  have h1 : max (-(2 ^ 63 : Int)) (min v (2 ^ 63 - 1)) = v := by
    rw [min_eq_left (by omega), max_eq_right (by omega)]
  rw [h1]
  omega

theorem digit_char (k : Nat) (hk : k < 10) :
    isdigit (Char.ofNat (48 + k)) = true ∧ (Char.ofNat (48 + k)).toNat - 48 = k := by
  interval_cases k <;> exact ⟨by decide, by decide⟩

theorem isdigit_plain (c : Char) (h : isdigit c = true) :
    isspace c = false ∧ c ≠ '-' ∧ c ≠ '+' := by
  simp only [isdigit, Bool.and_eq_true, decide_eq_true_eq] at h
  refine ⟨?_, ?_, ?_⟩
  · simp only [isspace, Bool.or_eq_false_iff, decide_eq_false_iff_not]
    refine ⟨⟨⟨⟨⟨?_, ?_⟩, ?_⟩, ?_⟩, ?_⟩, ?_⟩ <;> (intro hc; subst hc; revert h; decide)
  · intro hc; subst hc; revert h; decide
  · intro hc; subst hc; revert h; decide

/-- The digits `%d` writes for a natural number are digits, at least one,
and `atoi` reads the number back from them. -/
theorem fmt_nat_fuel_spec (fuel n : Nat) (h : n < fuel) :
    (∀ c ∈ fmt_nat_fuel fuel n, isdigit c = true) ∧ fmt_nat_fuel fuel n ≠ [] ∧
    (fmt_nat_fuel fuel n).foldl (fun a c => 10 * a + (c.toNat - 48)) 0 = n := by
  induction fuel generalizing n with
  | zero => omega
  | succ fuel ih =>
    unfold fmt_nat_fuel
    split
    · rename_i hn
      have hd := digit_char n hn
      simp [hd.1, hd.2]
    · rename_i hn
      have hd := digit_char (n % 10) (Nat.mod_lt _ (by decide))
      obtain ⟨h1, h2, h3⟩ := ih (n / 10) (by omega)
      refine ⟨?_, by simp, ?_⟩
      · intro c hc
        simp only [List.mem_append, List.mem_singleton] at hc
        rcases hc with hc | hc
        · exact h1 c hc
        · subst hc; exact hd.1
      · rw [List.foldl_append, h3]
        simp only [List.foldl_cons, List.foldl_nil, hd.2]
        omega

theorem digits_value_fmt_nat (n : Nat) : digits_value (fmt_nat n) = n := by
  obtain ⟨h1, _, h3⟩ := fmt_nat_fuel_spec (n + 1) n (by omega)
  unfold digits_value fmt_nat
  rw [List.takeWhile_eq_self_iff.2 h1, h3]

theorem fmt_nat_head (n : Nat) : ∃ d r, fmt_nat n = d :: r ∧ isdigit d = true := by
  obtain ⟨h1, h2, _⟩ := fmt_nat_fuel_spec (n + 1) n (by omega)
  unfold fmt_nat
  cases hl : fmt_nat_fuel (n + 1) n with
  | nil => exact absurd hl h2
  | cons d r => exact ⟨d, r, rfl, h1 d (by simp [hl])⟩

/-- `atoi` reads back what `%d` wrote for an `int`. -/
theorem atoi_fmt_d (v : Int) (h : is_int v) : atoi (fmt_d v) = v := by
  obtain ⟨d, r, hd, hdig⟩ := fmt_nat_head v.natAbs
  have hp := isdigit_plain d hdig
  have hv := digits_value_fmt_nat v.natAbs
  by_cases hneg : v < 0
  · have hf : fmt_d v = '-' :: fmt_nat v.natAbs := by simp [fmt_d, hneg]
    have hs : isspace '-' = false := by decide
    rw [hf]
    unfold atoi
    simp only [List.dropWhile_cons, hs, Bool.false_eq_true, if_false, hv]
    rw [show (-(v.natAbs : Int)) = v by omega]
    exact to_int_to_long v h
  · have hf : fmt_d v = d :: r := by simp [fmt_d, hneg, hd]
    rw [hd] at hv
    rw [hf]
    unfold atoi
    simp only [List.dropWhile_cons, hp.1, Bool.false_eq_true, if_false]
    split
    · rename_i heq; exact absurd (List.cons.inj heq).1 hp.2.1
    · rename_i heq; exact absurd (List.cons.inj heq).1 hp.2.2
    · rw [hv, show ((v.natAbs : Nat) : Int) = v by omega]
      exact to_int_to_long v h

theorem digits_value_no_digit (r : List Char) (h : ∀ c ∈ r.head?, isdigit c = false) :
    digits_value r = 0 := by
  unfold digits_value
  cases r with
  | nil => rfl
  | cons c r =>
    have := h c (by simp)
    simp [List.takeWhile_cons, this]

/-- `atoi` gives 0 for a string without a leading integer. -/
theorem atoi_no_leading_integer (s : List Char) (h : no_leading_integer s) : atoi s = 0 := by
  unfold no_leading_integer at h
  unfold atoi
  split <;> simp_all [digits_value_no_digit, to_int, to_long]

/-! ## The search of `mxmlFindElement` -/

/-- Every node the walk lists is a node, not NULL. -/
theorem mxml_walk_ne_null (t x : mxml_node_t) (h : x ∈ mxml_walk t) : x ≠ .NULL := by
  induction t with
  | NULL => simp [mxml_walk] at h
  | node v c n ihc ihn =>
    simp only [mxml_walk, List.mem_cons, List.mem_append] at h
    rcases h with h | h | h
    · subst h; simp
    · exact ihc h
    · exact ihn h

/-- The search returns the first node in document order that passes the test. -/
theorem mxml_find_walk_eq (name : List Char) (attr value : Option (List Char))
    (t : mxml_node_t) :
    mxml_find_walk name attr value t
      = ((mxml_walk t).find? (fun x => mxml_find_match x name attr value)).getD .NULL := by
  induction t with
  | NULL => simp [mxml_find_walk, mxml_walk]
  | node v c n ihc ihn =>
    unfold mxml_find_walk
    simp only [mxml_walk, List.find?_cons]
    by_cases hm : mxml_find_match (.node v c n) name attr value = true
    · simp [hm]
    · simp only [hm, Bool.false_eq_true, if_false, List.find?_append]
      rw [ihc, ihn]
      cases hf : (mxml_walk c).find? (fun x => mxml_find_match x name attr value) with
      | none => simp
      | some x =>
        have hx : x ≠ .NULL := mxml_walk_ne_null c x (List.mem_of_find?_eq_some hf)
        cases x with
        | NULL => exact absurd rfl hx
        | node v1 c1 n1 => simp

/-- The search finds nothing exactly when no node below passes the test. -/
theorem mxmlFindElement_eq_null (node : mxml_node_t) (name : List Char)
    (attr value : Option (List Char)) :
    mxmlFindElement node name attr value = .NULL ↔
      ∀ x ∈ mxml_descendants node, mxml_find_match x name attr value = false := by
  cases node with
  | NULL => simp [mxmlFindElement, mxml_descendants]
  | node v c n =>
    simp only [mxmlFindElement, mxml_descendants, mxml_find_walk_eq]
    cases hf : (mxml_walk c).find? (fun x => mxml_find_match x name attr value) with
    | none =>
      simp only [Option.getD_none, true_iff]
      intro x hx
      have := List.find?_eq_none.1 hf x hx
      simpa using this
    | some x =>
      have hx : x ≠ .NULL := mxml_walk_ne_null c x (List.mem_of_find?_eq_some hf)
      have hp := List.find?_some hf
      simp only [Option.getD_some]
      constructor
      · intro h; exact absurd h hx
      · intro h
        have := h x (List.mem_of_find?_eq_some hf)
        simp [this] at hp

/-- A node the search returns is below the start node and passes the test. -/
theorem mxmlFindElement_found (node : mxml_node_t) (name : List Char)
    (attr value : Option (List Char)) (h : mxmlFindElement node name attr value ≠ .NULL) :
    mxmlFindElement node name attr value ∈ mxml_descendants node ∧
    mxml_find_match (mxmlFindElement node name attr value) name attr value = true := by
  cases node with
  | NULL => simp [mxmlFindElement] at h
  | node v c n =>
    simp only [mxmlFindElement, mxml_descendants, mxml_find_walk_eq] at h ⊢
    cases hf : (mxml_walk c).find? (fun x => mxml_find_match x name attr value) with
    | none => simp [hf] at h
    | some x =>
      have hp := List.find?_some hf
      simp only [Option.getD_some]
      exact ⟨List.mem_of_find?_eq_some hf, hp⟩


/-! ## `find_cutmarks_in_kdenlive_project_file`, step by step -/

/-- The blank length `find_cutmarks_in_kdenlive_project_file` takes from the
node found for `blank`. -/
theorem find_cutmarks_steps (load : List Char → mxml_node_t) (s : kl_state)
    (wb : filebuffer_t) (a b c : Int) (hwb : s.kl_writebuffer = some wb) :
    find_cutmarks_in_kdenlive_project_file load s a b c =
      (let doc := load (filebuffer__read_all_to_cstring wb)
       let pl := mxmlFindElement doc "playlist".data (some "id".data) (some "playlist5".data)
       let bl := mxmlFindElement pl "blank".data none none
       let en := mxmlFindElement pl "entry".data (some "producer".data) (some "1".data)
       if doc = .NULL then ⟨1, a, b, c⟩
       else if pl = .NULL then ⟨2, a, b, c⟩
       else if en = .NULL then ⟨3, a, b, c⟩
       else
         match mxmlElementGetAttr en "in".data, mxmlElementGetAttr en "out".data with
         | none, _ => ⟨4, a, b, c⟩
         | some _, none => ⟨5, a, b, c⟩
         | some strin, some strout =>
           if atoi strin < 0 then ⟨6, a, b, c⟩
           else if atoi strout ≤ 0 then ⟨7, a, b, c⟩
           else ⟨0, atoi strin, atoi strout,
             match mxmlElementGetAttr bl "length".data with
             | none => 0
             | some strblank => min (max (atoi strblank) 0) 45000⟩) := by
  unfold find_cutmarks_in_kdenlive_project_file
  simp only [hwb]
  cases hdoc : load (filebuffer__read_all_to_cstring wb) with
  | NULL => simp
  | node dv dc dn =>
    simp only [reduceCtorEq, if_false]
    cases hpl : mxmlFindElement (.node dv dc dn) "playlist".data (some "id".data)
        (some "playlist5".data) with
    | NULL => simp
    | node pv pc pn =>
      simp only [reduceCtorEq, if_false]
      cases hen : mxmlFindElement (.node pv pc pn) "entry".data (some "producer".data)
          (some "1".data) with
      | NULL => simp
      | node ev ec en =>
        simp only [reduceCtorEq, if_false]
        cases hin : mxmlElementGetAttr (.node ev ec en) "in".data with
        | none => simp
        | some strin =>
          cases hout : mxmlElementGetAttr (.node ev ec en) "out".data with
          | none => simp
          | some strout =>
            simp only [gt_iff_lt, ge_iff_le]
            split
            · rfl
            · split
              · rfl
              · congr 1
                cases hbl : mxmlFindElement (.node pv pc pn) "blank".data none none with
                | NULL => simp [mxmlElementGetAttr]
                | node bv bc bn =>
                  simp only
                  cases hlen : mxmlElementGetAttr (.node bv bc bn) "length".data with
                  | none => rfl
                  | some strblank =>
                    simp only
                    split <;> split <;> omega

/-! ## The write session -/

theorem get_cache_session (g : fuse_ts_globals) (s s1 : kl_state) (fn : List Char) (nf b : Int)
    (h : get_kdenlive_project_file_cache g s fn nf b = some s1) :
    s1.kl_project_file_refcount = s.kl_project_file_refcount ∧
    s1.kl_writebuffer = s.kl_writebuffer := by
  unfold get_kdenlive_project_file_cache at h
  by_cases hit : s.kl_project_file_cache ≠ none ∧ s.kl_project_file_cache_inframe = g.inframe
      ∧ s.kl_project_file_cache_outframe = g.outframe
      ∧ s.kl_project_file_cache_blanklen = b
  · rw [if_pos hit] at h
    obtain rfl := Option.some.inj h
    exact ⟨rfl, rfl⟩
  · rw [if_neg hit] at h
    simp only at h
    split at h <;> split at h
    · exact Option.noConfusion h
    · obtain rfl := Option.some.inj h
      exact ⟨rfl, rfl⟩
    · exact Option.noConfusion h
    · obtain rfl := Option.some.inj h
      exact ⟨rfl, rfl⟩

theorem open_refcount (g : fuse_ts_globals) (s s1 : kl_state) (mp : List Char) (f b : Int)
    (t : Bool) (h : open_kdenlive_project_file g s mp f b t = some s1) :
    s1.kl_project_file_refcount = s.kl_project_file_refcount + 1 := by
  unfold open_kdenlive_project_file at h
  simp only at h
  split at h
  · cases h; rfl
  · split at h
    · split at h
      · cases h; rfl
      · split at h
        · cases h
        · rename_i s2 hs2
          have h2 := get_cache_session _ _ _ _ _ _ hs2
          split at h
          · cases h
          · cases h
            exact h2.1
    · split at h <;> (cases h; rfl)

theorem open_buffer (g : fuse_ts_globals) (s s1 : kl_state) (mp : List Char) (f b : Int)
    (t : Bool) (h : open_kdenlive_project_file g s mp f b t = some s1) :
    (s.kl_project_file_refcount ≤ 0 → s1.kl_writebuffer ≠ none) ∧
    (s.kl_writebuffer ≠ none → s1.kl_writebuffer ≠ none) ∧
    (0 < s.kl_project_file_refcount → s1.kl_writebuffer = s.kl_writebuffer) := by
  unfold open_kdenlive_project_file at h
  simp only at h
  split at h
  · cases h
    rename_i h1
    refine ⟨fun h0 => ?_, fun h0 => h0, fun _ => rfl⟩
    omega
  · rename_i h1
    split at h
    · rename_i hn
      split at h
      · cases h
        exact ⟨fun _ => by simp, fun _ => by simp, fun h0 => by omega⟩
      · split at h
        · cases h
        · split at h
          · cases h
          · cases h
            exact ⟨fun _ => by simp, fun _ => by simp, fun h0 => by omega⟩
    · rename_i wb hn
      split at h
      · cases h
        exact ⟨fun _ => by simp, fun _ => by simp, fun h0 => by omega⟩
      · cases h
        exact ⟨fun _ => by simp [hn], fun _ => by simp [hn], fun h0 => by omega⟩

theorem close_refcount (s : kl_state) :
    (close_kdenlive_project_file s).kl_project_file_refcount = s.kl_project_file_refcount - 1 := by
  unfold close_kdenlive_project_file
  simp only
  split
  · rfl
  · split <;> rfl

theorem close_buffer (s : kl_state) :
    (1 < s.kl_project_file_refcount →
      (close_kdenlive_project_file s).kl_writebuffer = s.kl_writebuffer) ∧
    (s.kl_project_file_refcount ≤ 1 → (close_kdenlive_project_file s).kl_writebuffer = none) := by
  unfold close_kdenlive_project_file
  simp only
  split
  · rename_i h
    exact ⟨fun _ => rfl, fun h0 => by omega⟩
  · rename_i h
    split
    · exact ⟨fun h0 => by omega, fun _ => rfl⟩
    · rename_i hn
      exact ⟨fun h0 => by omega, fun _ => hn⟩

theorem write_session (s : kl_state) (buf : List Char) (n off : Nat) :
    (write_kdenlive_project_file s buf n off).1.kl_project_file_refcount
      = s.kl_project_file_refcount ∧
    ((write_kdenlive_project_file s buf n off).1.kl_writebuffer = none ↔ s.kl_writebuffer = none) := by
  unfold write_kdenlive_project_file
  split
  · rename_i h; simp [h]
  · rename_i wb h; simp [h]

theorem truncate_session (s : kl_state) :
    (truncate_kdenlive_project_file s).kl_project_file_refcount = s.kl_project_file_refcount ∧
    ((truncate_kdenlive_project_file s).kl_writebuffer = none ↔ s.kl_writebuffer = none) := by
  unfold truncate_kdenlive_project_file
  split
  · rename_i wb h; simp [h]
  · rename_i h; simp [h]


/-- The contribution of one call to the difference of opens and closes. -/
theorem kl_opens_cons (c : kl_call) (cs : List kl_call) :
    kl_opens (c :: cs) = (match c with | .open _ _ _ _ _ => 1 | _ => 0) + kl_opens cs := by
  cases c <;> simp [kl_opens, List.filter_cons]
  all_goals omega

theorem kl_closes_cons (c : kl_call) (cs : List kl_call) :
    kl_closes (c :: cs) = (match c with | .close => 1 | _ => 0) + kl_closes cs := by
  cases c <;> simp [kl_closes, List.filter_cons]
  all_goals omega

/-- One call changes the refcount by +1 (`open`), -1 (`close`) or 0. -/
theorem apply_refcount (c : kl_call) (s s1 : kl_state) (h : c.apply s = some s1) :
    s1.kl_project_file_refcount
      = s.kl_project_file_refcount + (kl_opens [c] : Int) - (kl_closes [c] : Int) := by
  cases c with
  | «open» g mp f b t =>
    have := open_refcount g s s1 mp f b t h
    simp [kl_opens, kl_closes, this]
  | write buf n off =>
    obtain rfl := Option.some.inj h
    simp [kl_opens, kl_closes, (write_session s buf n off).1]
  | truncate =>
    obtain rfl := Option.some.inj h
    simp [kl_opens, kl_closes, (truncate_session s).1]
  | close =>
    obtain rfl := Option.some.inj h
    simp [kl_opens, kl_closes, close_refcount s]

/-- One call keeps "a positive refcount comes with a buffer". -/
theorem apply_alive (c : kl_call) (s s1 : kl_state) (h : c.apply s = some s1)
    (hs : 0 < s.kl_project_file_refcount → s.kl_writebuffer ≠ none) :
    0 < s1.kl_project_file_refcount → s1.kl_writebuffer ≠ none := by
  cases c with
  | «open» g mp f b t =>
    have h1 := open_refcount g s s1 mp f b t h
    have h2 := open_buffer g s s1 mp f b t h
    intro _
    by_cases h0 : s.kl_project_file_refcount ≤ 0
    · exact h2.1 h0
    · exact h2.2.1 (hs (by omega))
  | write buf n off =>
    obtain rfl := Option.some.inj h
    have h1 := write_session s buf n off
    intro h0 hn
    rw [h1.1] at h0
    exact hs h0 (h1.2.1 hn)
  | truncate =>
    obtain rfl := Option.some.inj h
    have h1 := truncate_session s
    intro h0 hn
    rw [h1.1] at h0
    exact hs h0 (h1.2.1 hn)
  | close =>
    obtain rfl := Option.some.inj h
    have h1 := close_refcount s
    have h2 := close_buffer s
    intro h0
    rw [h1] at h0
    rw [h2.1 (by omega)]
    exact hs (by omega)

/-- One call that is not a `close` at refcount 0 or below keeps "the buffer
exists exactly at a positive refcount". -/
theorem apply_exact (c : kl_call) (s s1 : kl_state) (h : c.apply s = some s1)
    (hs : s.kl_writebuffer ≠ none ↔ 0 < s.kl_project_file_refcount)
    (h0 : 0 ≤ s.kl_project_file_refcount)
    (hc : c = .close → 0 < s.kl_project_file_refcount) :
    (s1.kl_writebuffer ≠ none ↔ 0 < s1.kl_project_file_refcount) := by
  have halive := apply_alive c s s1 h hs.2
  refine ⟨fun hb => ?_, halive⟩
  cases c with
  | «open» g mp f b t =>
    have h1 := open_refcount g s s1 mp f b t h
    omega
  | write buf n off =>
    obtain rfl := Option.some.inj h
    have h1 := write_session s buf n off
    rw [h1.1]
    exact hs.1 (fun hn => hb (h1.2.2 hn))
  | truncate =>
    obtain rfl := Option.some.inj h
    have h1 := truncate_session s
    rw [h1.1]
    exact hs.1 (fun hn => hb (h1.2.2 hn))
  | close =>
    obtain rfl := Option.some.inj h
    have h1 := close_refcount s
    have h2 := close_buffer s
    have := hc rfl
    by_cases h3 : 1 < s.kl_project_file_refcount
    · omega
    · exact absurd (h2.2 (by omega)) hb

/-- The refcount after a sequence of calls is the refcount before, plus the
opens, minus the closes. -/
theorem run_refcount (cs : List kl_call) (s s1 : kl_state) (h : kl_run s cs = some s1) :
    s1.kl_project_file_refcount
      = s.kl_project_file_refcount + (kl_opens cs : Int) - (kl_closes cs : Int) := by
  induction cs generalizing s with
  | nil =>
    obtain rfl := Option.some.inj h
    simp [kl_opens, kl_closes]
  | cons c cs ih =>
    unfold kl_run at h
    split at h
    · exact Option.noConfusion h
    · rename_i s2 hs2
      have h1 := apply_refcount c s s2 hs2
      have h2 := ih s2 h
      rw [h2, h1, kl_opens_cons c cs, kl_closes_cons c cs]
      cases c <;> simp [kl_opens, kl_closes] <;> omega

/-- A sequence of calls keeps "a positive refcount comes with a buffer". -/
theorem run_alive (cs : List kl_call) (s s1 : kl_state) (h : kl_run s cs = some s1)
    (hs : 0 < s.kl_project_file_refcount → s.kl_writebuffer ≠ none) :
    0 < s1.kl_project_file_refcount → s1.kl_writebuffer ≠ none := by
  induction cs generalizing s with
  | nil =>
    obtain rfl := Option.some.inj h
    exact hs
  | cons c cs ih =>
    unfold kl_run at h
    split at h
    · exact Option.noConfusion h
    · rename_i s2 hs2
      exact ih s2 h (apply_alive c s s2 hs2 hs)


/-- A sequence of calls that never closes more than was opened keeps "the
buffer exists exactly at a positive refcount". -/
theorem run_exact (cs : List kl_call) (s s1 : kl_state) (h : kl_run s cs = some s1)
    (hs : s.kl_writebuffer ≠ none ↔ 0 < s.kl_project_file_refcount)
    (h0 : 0 ≤ s.kl_project_file_refcount)
    (hb : ∀ p ∈ cs.inits, (kl_closes p : Int) ≤ kl_opens p + s.kl_project_file_refcount) :
    (s1.kl_writebuffer ≠ none ↔ 0 < s1.kl_project_file_refcount)
      ∧ 0 ≤ s1.kl_project_file_refcount := by
  induction cs generalizing s with
  | nil =>
    obtain rfl := Option.some.inj h
    exact ⟨hs, h0⟩
  | cons c cs ih =>
    unfold kl_run at h
    split at h
    · exact Option.noConfusion h
    · rename_i s2 hs2
      have h1 := apply_refcount c s s2 hs2
      have hc1 := hb [c] (by simp [List.inits_cons])
      have hclose : c = .close → 0 < s.kl_project_file_refcount := by
        intro hc
        subst hc
        simp [kl_opens, kl_closes] at hc1
        omega
      refine ih s2 h (apply_exact c s s2 hs2 hs h0 hclose) (by omega) ?_
      intro p hp
      have hp1 := hb (c :: p) (by simp [List.inits_cons]; exact (List.mem_inits _ _).1 hp)
      rw [kl_opens_cons c p, kl_closes_cons c p] at hp1
      rw [h1]
      cases c <;> simp [kl_opens, kl_closes] at hp1 ⊢ <;> omega


/-- The state after a sequence that ends in a `close`. -/
theorem run_close_last (cs : List kl_call) (s s1 : kl_state)
    (h : kl_run s (cs ++ [.close]) = some s1) :
    ∃ s0, kl_run s cs = some s0 ∧ s1 = close_kdenlive_project_file s0 := by
  induction cs generalizing s with
  | nil =>
    simp only [List.nil_append, kl_run, kl_call.apply] at h
    exact ⟨s, rfl, (Option.some.inj h).symm⟩
  | cons c cs ih =>
    simp only [List.cons_append] at h
    unfold kl_run at h
    split at h
    · exact Option.noConfusion h
    · rename_i s2 hs2
      obtain ⟨s0, h0, h1⟩ := ih s2 h
      refine ⟨s0, ?_, h1⟩
      unfold kl_run
      rw [hs2]
      exact h0

/-- C8, counterexample: after `close (); open (truncate)` from the initial
state the write buffer exists although the refcount is 0, so "buffer exists
if and only if refcount > 0" fails in a reachable state. -/
theorem session_buffer_iff_refcount_counterexample :
    ∃ s, kl_run kl_init
        [.close, .open ⟨0, -1, 1000, 123456, "/mnt".data⟩ "/uncut.ts".data 1000 0 true] = some s
      ∧ s.kl_writebuffer ≠ none ∧ ¬ 0 < s.kl_project_file_refcount :=
  ⟨_, rfl, by decide, by decide⟩

/-- C8, amended: in every state reachable from the initial state by `open`,
`write`, `truncate` and `close` calls, a refcount > 0 comes with a write
buffer; and when no prefix of the sequence holds more closes than opens, the
write buffer exists if and only if the refcount is > 0. -/
theorem session_buffer_iff_refcount (cs : List kl_call) (s : kl_state)
    (h : kl_run kl_init cs = some s) :
    (0 < s.kl_project_file_refcount → s.kl_writebuffer ≠ none) ∧
    (kl_balanced cs → (s.kl_writebuffer ≠ none ↔ 0 < s.kl_project_file_refcount)) := by
  refine ⟨run_alive cs kl_init s h (by decide), fun hb => ?_⟩
  refine (run_exact cs kl_init s h (by decide) (by decide) ?_).1
  intro p hp
  have := hb p hp
  simp [kl_init]
  omega

theorem session_buffer_iff_refcount_witness :
    kl_run kl_init
        [.open ⟨0, -1, 1000, 123456, "/mnt".data⟩ "/uncut.ts".data 1000 0 true, .close,
          .open ⟨0, -1, 1000, 123456, "/mnt".data⟩ "/uncut.ts".data 1000 0 true]
      = some { kl_init with kl_project_file_refcount := 1, kl_writebuffer := some ⟨[]⟩ } ∧
    ((0 : Int) < 1 → (some ⟨[]⟩ : Option filebuffer_t) ≠ none) ∧
    (kl_balanced
        [.open ⟨0, -1, 1000, 123456, "/mnt".data⟩ "/uncut.ts".data 1000 0 true, .close,
          .open ⟨0, -1, 1000, 123456, "/mnt".data⟩ "/uncut.ts".data 1000 0 true] →
      ((some ⟨[]⟩ : Option filebuffer_t) ≠ none ↔ (0 : Int) < 1)) :=
  ⟨rfl, session_buffer_iff_refcount
    [.open ⟨0, -1, 1000, 123456, "/mnt".data⟩ "/uncut.ts".data 1000 0 true, .close,
      .open ⟨0, -1, 1000, 123456, "/mnt".data⟩ "/uncut.ts".data 1000 0 true]
    { kl_init with kl_project_file_refcount := 1, kl_writebuffer := some ⟨[]⟩ } rfl⟩

/-- C9: after every sequence of `open`, `write`, `truncate` and `close` calls
from the initial state with more opens than closes the write buffer exists;
and a `close` that leaves the refcount > 0 leaves the write buffer as it is. -/
theorem session_survives_until_last_close (cs : List kl_call) (s : kl_state)
    (h : kl_run kl_init cs = some s) (hlt : kl_closes cs < kl_opens cs) :
    s.kl_writebuffer ≠ none ∧
    ∀ t : kl_state, 0 < (close_kdenlive_project_file t).kl_project_file_refcount →
      (close_kdenlive_project_file t).kl_writebuffer = t.kl_writebuffer := by
  constructor
  · apply run_alive cs kl_init s h (by decide)
    rw [run_refcount cs kl_init s h]
    simp [kl_init]
    omega
  · intro t ht
    rw [close_refcount] at ht
    exact (close_buffer t).1 (by omega)

theorem session_survives_until_last_close_witness :
    kl_run kl_init
        [.open ⟨0, -1, 1000, 123456, "/mnt".data⟩ "/uncut.ts".data 1000 0 true,
          .open ⟨0, -1, 1000, 123456, "/mnt".data⟩ "/uncut.ts".data 1000 0 false, .close]
      = some { kl_init with kl_project_file_refcount := 1, kl_writebuffer := some ⟨[]⟩ } ∧
    (some ⟨[]⟩ : Option filebuffer_t) ≠ none :=
  ⟨rfl, (session_survives_until_last_close
    [.open ⟨0, -1, 1000, 123456, "/mnt".data⟩ "/uncut.ts".data 1000 0 true,
      .open ⟨0, -1, 1000, 123456, "/mnt".data⟩ "/uncut.ts".data 1000 0 false, .close]
    _ rfl (by decide)).1⟩

/-- C10, counterexample: `open (); close (); close ()` from the initial state
ends with the refcount -1, which is negative and not the initial state. -/
theorem refcount_never_negative_counterexample :
    ∃ s, kl_run kl_init
        [.open ⟨0, -1, 1000, 123456, "/mnt".data⟩ "/uncut.ts".data 1000 0 true, .close, .close]
        = some s
      ∧ s.kl_project_file_refcount = -1 ∧ ¬ 0 ≤ s.kl_project_file_refcount ∧ s ≠ kl_init :=
  ⟨_, rfl, by decide, by decide, by decide⟩

/-- C10, amended: the refcount is not kept from going negative: after every
sequence of calls from the initial state it is the number of opens minus the
number of closes, so it is >= 0 exactly when the closes do not exceed the
opens; a sequence that ends in a `close` at a refcount <= 0 ends without a
write buffer (as `open (); close (); close ()` does, at refcount -1). -/
theorem refcount_opens_minus_closes (cs : List kl_call) (s : kl_state)
    (h : kl_run kl_init cs = some s) :
    s.kl_project_file_refcount = (kl_opens cs : Int) - (kl_closes cs : Int) ∧
    (0 ≤ s.kl_project_file_refcount ↔ kl_closes cs ≤ kl_opens cs) ∧
    (∀ cs1, cs = cs1 ++ [.close] → s.kl_project_file_refcount ≤ 0 → s.kl_writebuffer = none) := by
  have h1 := run_refcount cs kl_init s h
  simp [kl_init] at h1
  refine ⟨h1, by omega, ?_⟩
  intro cs1 hcs hle
  subst hcs
  obtain ⟨s0, _, hs0⟩ := run_close_last cs1 kl_init s h
  subst hs0
  rw [close_refcount] at hle
  exact (close_buffer s0).2 (by omega)

theorem refcount_opens_minus_closes_witness :
    kl_run kl_init
        [.open ⟨0, -1, 1000, 123456, "/mnt".data⟩ "/uncut.ts".data 1000 0 true, .close, .close]
      = some { kl_init with kl_project_file_refcount := -1 } ∧
    (-1 : Int) = ((1 : Nat) : Int) - ((2 : Nat) : Int) ∧
    ((0 : Int) ≤ -1 ↔ 2 ≤ 1) ∧
    (∀ cs1,
      [.open ⟨0, -1, 1000, 123456, "/mnt".data⟩ "/uncut.ts".data 1000 0 true, .close, .close]
        = cs1 ++ [kl_call.close] →
      (-1 : Int) ≤ 0 → (none : Option filebuffer_t) = none) :=
  ⟨rfl, refcount_opens_minus_closes
    [.open ⟨0, -1, 1000, 123456, "/mnt".data⟩ "/uncut.ts".data 1000 0 true, .close, .close]
    { kl_init with kl_project_file_refcount := -1 } rfl⟩

/-! ## The cut marks -/

/-- C2: whenever `find_cutmarks_in_kdenlive_project_file` returns 0, for
whatever the write buffer holds and whatever the loader makes of it, the values
it puts out satisfy inframe >= 0, outframe > 0 and 0 <= blanklen <= 45000. -/
theorem cutmarks_in_range (load : List Char → mxml_node_t) (s : kl_state) (a b c : Int)
    (h : (find_cutmarks_in_kdenlive_project_file load s a b c).ret = 0) :
    0 ≤ (find_cutmarks_in_kdenlive_project_file load s a b c).inframe ∧
    0 < (find_cutmarks_in_kdenlive_project_file load s a b c).outframe ∧
    0 ≤ (find_cutmarks_in_kdenlive_project_file load s a b c).blanklen ∧
    (find_cutmarks_in_kdenlive_project_file load s a b c).blanklen ≤ 45000 := by
  cases hwb : s.kl_writebuffer with
  | none =>
    simp [find_cutmarks_in_kdenlive_project_file, hwb] at h
  | some wb =>
    rw [find_cutmarks_steps load s wb a b c hwb] at h ⊢
    simp only at h ⊢
    split at h
    · exact absurd (show (1 : Int) = 0 from h) (by decide)
    · split at h
      · exact absurd (show (2 : Int) = 0 from h) (by decide)
      · split at h
        · exact absurd (show (3 : Int) = 0 from h) (by decide)
        · rename_i h1 h2 h3
          split at h
          · exact absurd (show (4 : Int) = 0 from h) (by decide)
          · exact absurd (show (5 : Int) = 0 from h) (by decide)
          · rename_i strin strout hin hout
            split at h
            · exact absurd (show (6 : Int) = 0 from h) (by decide)
            · split at h
              · exact absurd (show (7 : Int) = 0 from h) (by decide)
              · rename_i hi ho
                simp only [h1, h2, h3, hi, ho, if_false]
                refine ⟨by omega, by omega, ?_, ?_⟩
                · split
                  · exact le_refl _
                  · exact le_min (le_max_right _ _) (by decide)
                · split
                  · decide
                  · exact min_le_right _ _


set_option maxRecDepth 8192 in
theorem cutmarks_in_range_witness :
    (find_cutmarks_in_kdenlive_project_file mxmlLoadString
      (kl_written (kl_saved "<blank length=\"99999\"/><entry producer=\"1\" in=\"50\" out=\"300\"/>"))
      7 8 9).ret = 0 ∧
    0 ≤ (find_cutmarks_in_kdenlive_project_file mxmlLoadString
      (kl_written (kl_saved "<blank length=\"99999\"/><entry producer=\"1\" in=\"50\" out=\"300\"/>"))
      7 8 9).inframe ∧
    0 < (find_cutmarks_in_kdenlive_project_file mxmlLoadString
      (kl_written (kl_saved "<blank length=\"99999\"/><entry producer=\"1\" in=\"50\" out=\"300\"/>"))
      7 8 9).outframe ∧
    0 ≤ (find_cutmarks_in_kdenlive_project_file mxmlLoadString
      (kl_written (kl_saved "<blank length=\"99999\"/><entry producer=\"1\" in=\"50\" out=\"300\"/>"))
      7 8 9).blanklen ∧
    (find_cutmarks_in_kdenlive_project_file mxmlLoadString
      (kl_written (kl_saved "<blank length=\"99999\"/><entry producer=\"1\" in=\"50\" out=\"300\"/>"))
      7 8 9).blanklen ≤ 45000 :=
  ⟨by decide, cutmarks_in_range mxmlLoadString
    (kl_written (kl_saved "<blank length=\"99999\"/><entry producer=\"1\" in=\"50\" out=\"300\"/>"))
    7 8 9 (by decide)⟩

/-- The steps of `find_cutmarks_in_kdenlive_project_file` once the playlist
and its entry are found. -/
theorem find_cutmarks_entry (load : List Char → mxml_node_t) (s : kl_state)
    (wb : filebuffer_t) (a b c : Int) (doc pl en : mxml_node_t)
    (hwb : s.kl_writebuffer = some wb)
    (hdoc : load (filebuffer__read_all_to_cstring wb) = doc)
    (hpl : mxmlFindElement doc "playlist".data (some "id".data) (some "playlist5".data) = pl)
    (hpl0 : pl ≠ .NULL)
    (hen : mxmlFindElement pl "entry".data (some "producer".data) (some "1".data) = en)
    (hen0 : en ≠ .NULL) :
    find_cutmarks_in_kdenlive_project_file load s a b c =
      match mxmlElementGetAttr en "in".data, mxmlElementGetAttr en "out".data with
      | none, _ => ⟨4, a, b, c⟩
      | some _, none => ⟨5, a, b, c⟩
      | some strin, some strout =>
        if atoi strin < 0 then ⟨6, a, b, c⟩
        else if atoi strout ≤ 0 then ⟨7, a, b, c⟩
        else ⟨0, atoi strin, atoi strout,
          match mxmlElementGetAttr (mxmlFindElement pl "blank".data none none)
            "length".data with
          | none => 0
          | some strblank => min (max (atoi strblank) 0) 45000⟩ := by
  have hdoc0 : doc ≠ .NULL := by
    intro h0
    rw [h0] at hpl
    exact hpl0 hpl.symm
  rw [find_cutmarks_steps load s wb a b c hwb]
  simp only [hdoc, hpl, hen, hdoc0, hpl0, hen0, if_false]

/-- C3: when the playlist with id "playlist5" of the document (the first one
below the top node, in document order) has no blank element and its entry
with producer "1" has the attributes in and out, which read as i >= 0 and
o > 0, then `find_cutmarks_in_kdenlive_project_file` returns 0 and puts out
exactly (i, o, 0). -/
theorem cutmarks_without_blank (load : List Char → mxml_node_t) (s : kl_state)
    (wb : filebuffer_t) (a b c : Int) (doc pl en : mxml_node_t)
    (strin strout : List Char) (i o : Int)
    (hwb : s.kl_writebuffer = some wb)
    (hdoc : load (filebuffer__read_all_to_cstring wb) = doc)
    (hpl : mxmlFindElement doc "playlist".data (some "id".data) (some "playlist5".data) = pl)
    (hpl0 : pl ≠ .NULL)
    (hbl : ∀ x ∈ mxml_descendants pl, mxml_find_match x "blank".data none none = false)
    (hen : mxmlFindElement pl "entry".data (some "producer".data) (some "1".data) = en)
    (hen0 : en ≠ .NULL)
    (hin : mxmlElementGetAttr en "in".data = some strin) (hi : atoi strin = i)
    (hout : mxmlElementGetAttr en "out".data = some strout) (ho : atoi strout = o)
    (hi0 : 0 ≤ i) (ho0 : 0 < o) :
    find_cutmarks_in_kdenlive_project_file load s a b c = ⟨0, i, o, 0⟩ := by
  rw [find_cutmarks_entry load s wb a b c doc pl en hwb hdoc hpl hpl0 hen hen0]
  have hb := (mxmlFindElement_eq_null pl "blank".data none none).2 hbl
  simp only [hin, hout, hi, ho, hb]
  rw [if_neg (by omega), if_neg (by omega)]
  rfl

set_option maxRecDepth 8192 in
theorem cutmarks_without_blank_witness :
    find_cutmarks_in_kdenlive_project_file mxmlLoadString
      (kl_written (kl_saved "<entry producer=\"1\" in=\"50\" out=\"300\"/>"))
      7 8 9 = ⟨0, 50, 300, 0⟩ :=
  cutmarks_without_blank mxmlLoadString
      (kl_written (kl_saved "<entry producer=\"1\" in=\"50\" out=\"300\"/>"))
      ⟨kl_saved "<entry producer=\"1\" in=\"50\" out=\"300\"/>"⟩ 7 8 9 _ _ _ "50".data "300".data 50 300
    rfl rfl rfl (by decide) (by decide) rfl (by decide) (by decide) (by decide) (by decide)
    (by decide) (by decide) (by decide)


set_option maxRecDepth 8192 in
/-- C4, counterexample: the length "-2147483649" gives the blank length 45000
and the length "4294967296" gives 0, where min (max L 0) 45000 is 0 and
45000: `atoi` converts to `int`, and outside the range of an `int` the value
wraps. -/
theorem blank_length_clamped_counterexample :
    (find_cutmarks_in_kdenlive_project_file mxmlLoadString
      (kl_written (kl_saved
        "<blank length=\"-2147483649\"/><entry producer=\"1\" in=\"50\" out=\"300\"/>"))
      7 8 9) = ⟨0, 50, 300, 45000⟩ ∧
    min (max (-2147483649 : Int) 0) 45000 = 0 ∧
    (find_cutmarks_in_kdenlive_project_file mxmlLoadString
      (kl_written (kl_saved
        "<blank length=\"4294967296\"/><entry producer=\"1\" in=\"50\" out=\"300\"/>"))
      7 8 9) = ⟨0, 50, 300, 0⟩ ∧
    min (max (4294967296 : Int) 0) 45000 = 45000 := by
  decide

/-- C4, amended: with `bl` the blank element of the playlist with id
"playlist5" (the first one below it) and a valid entry,
`find_cutmarks_in_kdenlive_project_file` returns 0 and the blank length it puts out is the length attribute of `bl`
clamped into [0, 45000]: min (max L 0) 45000 when the attribute is the decimal
text of an `int` L, and 0 when the attribute is missing or has no leading
integer. The blank element never makes the extraction fail. -/
theorem blank_length_clamped (load : List Char → mxml_node_t) (s : kl_state)
    (wb : filebuffer_t) (a b c : Int) (doc pl bl en : mxml_node_t)
    (strin strout : List Char) (i o : Int)
    (hwb : s.kl_writebuffer = some wb)
    (hdoc : load (filebuffer__read_all_to_cstring wb) = doc)
    (hpl : mxmlFindElement doc "playlist".data (some "id".data) (some "playlist5".data) = pl)
    (hpl0 : pl ≠ .NULL)
    (hbl : mxmlFindElement pl "blank".data none none = bl)
    (hen : mxmlFindElement pl "entry".data (some "producer".data) (some "1".data) = en)
    (hen0 : en ≠ .NULL)
    (hin : mxmlElementGetAttr en "in".data = some strin) (hi : atoi strin = i)
    (hout : mxmlElementGetAttr en "out".data = some strout) (ho : atoi strout = o)
    (hi0 : 0 ≤ i) (ho0 : 0 < o) :
    (find_cutmarks_in_kdenlive_project_file load s a b c).ret = 0 ∧
    (find_cutmarks_in_kdenlive_project_file load s a b c).inframe = i ∧
    (find_cutmarks_in_kdenlive_project_file load s a b c).outframe = o ∧
    (∀ strblank, mxmlElementGetAttr bl "length".data = some strblank →
      (find_cutmarks_in_kdenlive_project_file load s a b c).blanklen
        = min (max (atoi strblank) 0) 45000) ∧
    (∀ L : Int, is_int L → mxmlElementGetAttr bl "length".data = some (fmt_d L) →
      (find_cutmarks_in_kdenlive_project_file load s a b c).blanklen = min (max L 0) 45000) ∧
    (∀ strblank, mxmlElementGetAttr bl "length".data = some strblank →
      no_leading_integer strblank →
      (find_cutmarks_in_kdenlive_project_file load s a b c).blanklen = 0) ∧
    (mxmlElementGetAttr bl "length".data = none →
      (find_cutmarks_in_kdenlive_project_file load s a b c).blanklen = 0) := by
  rw [find_cutmarks_entry load s wb a b c doc pl en hwb hdoc hpl hpl0 hen hen0]
  simp only [hin, hout, hi, ho, hbl]
  rw [if_neg (by omega), if_neg (by omega)]
  refine ⟨rfl, rfl, rfl, ?_, ?_, ?_, ?_⟩
  · intro strblank h
    simp only [h]
  · intro L hL h
    simp only [h, atoi_fmt_d L hL]
  · intro strblank h hno
    simp only [h, atoi_no_leading_integer strblank hno]
    rfl
  · intro h
    simp only [h]

set_option maxRecDepth 8192 in
theorem blank_length_clamped_witness :
    (find_cutmarks_in_kdenlive_project_file mxmlLoadString
      (kl_written (kl_saved "<blank length=\"99999\"/><entry producer=\"1\" in=\"50\" out=\"300\"/>"))
      7 8 9).blanklen = 45000 ∧
    (find_cutmarks_in_kdenlive_project_file mxmlLoadString
      (kl_written (kl_saved "<blank length=\"-5\"/><entry producer=\"1\" in=\"50\" out=\"300\"/>"))
      7 8 9).blanklen = 0 := by
  constructor
  · exact (blank_length_clamped mxmlLoadString
      (kl_written (kl_saved "<blank length=\"99999\"/><entry producer=\"1\" in=\"50\" out=\"300\"/>"))
      ⟨kl_saved "<blank length=\"99999\"/><entry producer=\"1\" in=\"50\" out=\"300\"/>"⟩ 7 8 9 _ _ _ _ "50".data "300".data 50 300
      rfl rfl rfl (by decide) rfl rfl (by decide) (by decide) (by decide)
      (by decide) (by decide) (by decide) (by decide)).2.2.2.2.1 99999
      ⟨by decide, by decide⟩ (by decide)
  · exact (blank_length_clamped mxmlLoadString
      (kl_written (kl_saved "<blank length=\"-5\"/><entry producer=\"1\" in=\"50\" out=\"300\"/>"))
      ⟨kl_saved "<blank length=\"-5\"/><entry producer=\"1\" in=\"50\" out=\"300\"/>"⟩ 7 8 9 _ _ _ _ "50".data "300".data 50 300
      rfl rfl rfl (by decide) rfl rfl (by decide) (by decide) (by decide)
      (by decide) (by decide) (by decide) (by decide)).2.2.2.2.1 (-5)
      ⟨by decide, by decide⟩ (by decide)

/-- C5: when the entry with producer "1" of the playlist with id "playlist5"
has no attribute in, `find_cutmarks_in_kdenlive_project_file` returns 4,
whether or not it has an attribute out; when it has in but no out, it returns
5, whatever in is. The values pointed to are left as they were. -/
theorem missing_inpoint_outpoint (load : List Char → mxml_node_t) (s : kl_state)
    (wb : filebuffer_t) (a b c : Int) (doc pl en : mxml_node_t)
    (hwb : s.kl_writebuffer = some wb)
    (hdoc : load (filebuffer__read_all_to_cstring wb) = doc)
    (hpl : mxmlFindElement doc "playlist".data (some "id".data) (some "playlist5".data) = pl)
    (hpl0 : pl ≠ .NULL)
    (hen : mxmlFindElement pl "entry".data (some "producer".data) (some "1".data) = en)
    (hen0 : en ≠ .NULL) :
    (mxmlElementGetAttr en "in".data = none →
      find_cutmarks_in_kdenlive_project_file load s a b c = ⟨4, a, b, c⟩) ∧
    (∀ strin, mxmlElementGetAttr en "in".data = some strin →
      mxmlElementGetAttr en "out".data = none →
      find_cutmarks_in_kdenlive_project_file load s a b c = ⟨5, a, b, c⟩) := by
  rw [find_cutmarks_entry load s wb a b c doc pl en hwb hdoc hpl hpl0 hen hen0]
  constructor
  · intro h
    simp only [h]
  · intro strin h1 h2
    simp only [h1, h2]

set_option maxRecDepth 8192 in
theorem missing_inpoint_outpoint_witness :
    find_cutmarks_in_kdenlive_project_file mxmlLoadString
      (kl_written (kl_saved "<entry producer=\"1\" out=\"300\"/>"))
      7 8 9 = ⟨4, 7, 8, 9⟩ :=
  (missing_inpoint_outpoint mxmlLoadString
      (kl_written (kl_saved "<entry producer=\"1\" out=\"300\"/>"))
      ⟨kl_saved "<entry producer=\"1\" out=\"300\"/>"⟩ 7 8 9 _ _ _
    rfl rfl rfl (by decide) rfl (by decide)).1 (by decide)

/-- C6: when the entry with producer "1" of the playlist with id "playlist5"
has both attributes, reading as the integers i and o,
`find_cutmarks_in_kdenlive_project_file` returns 6 if i < 0 (whatever o is),
7 if i >= 0 and o <= 0, and 0 with inframe i and outframe o otherwise. -/
theorem invalid_inpoint_outpoint (load : List Char → mxml_node_t) (s : kl_state)
    (wb : filebuffer_t) (a b c : Int) (doc pl en : mxml_node_t)
    (strin strout : List Char) (i o : Int)
    (hwb : s.kl_writebuffer = some wb)
    (hdoc : load (filebuffer__read_all_to_cstring wb) = doc)
    (hpl : mxmlFindElement doc "playlist".data (some "id".data) (some "playlist5".data) = pl)
    (hpl0 : pl ≠ .NULL)
    (hen : mxmlFindElement pl "entry".data (some "producer".data) (some "1".data) = en)
    (hen0 : en ≠ .NULL)
    (hin : mxmlElementGetAttr en "in".data = some strin) (hi : atoi strin = i)
    (hout : mxmlElementGetAttr en "out".data = some strout) (ho : atoi strout = o) :
    (i < 0 → find_cutmarks_in_kdenlive_project_file load s a b c = ⟨6, a, b, c⟩) ∧
    (0 ≤ i → o ≤ 0 → find_cutmarks_in_kdenlive_project_file load s a b c = ⟨7, a, b, c⟩) ∧
    (0 ≤ i → 0 < o →
      (find_cutmarks_in_kdenlive_project_file load s a b c).ret = 0 ∧
      (find_cutmarks_in_kdenlive_project_file load s a b c).inframe = i ∧
      (find_cutmarks_in_kdenlive_project_file load s a b c).outframe = o) := by
  rw [find_cutmarks_entry load s wb a b c doc pl en hwb hdoc hpl hpl0 hen hen0]
  simp only [hin, hout, hi, ho]
  refine ⟨fun h => ?_, fun h1 h2 => ?_, fun h1 h2 => ?_⟩
  · rw [if_pos h]
  · rw [if_neg (by omega), if_pos h2]
  · rw [if_neg (by omega), if_neg (by omega)]
    exact ⟨rfl, rfl, rfl⟩

set_option maxRecDepth 8192 in
theorem invalid_inpoint_outpoint_witness :
    find_cutmarks_in_kdenlive_project_file mxmlLoadString
      (kl_written (kl_saved "<entry producer=\"1\" in=\"-1\" out=\"300\"/>"))
      7 8 9 = ⟨6, 7, 8, 9⟩ ∧
    find_cutmarks_in_kdenlive_project_file mxmlLoadString
      (kl_written (kl_saved "<entry producer=\"1\" in=\"50\" out=\"0\"/>"))
      7 8 9 = ⟨7, 7, 8, 9⟩ :=
  ⟨(invalid_inpoint_outpoint mxmlLoadString
      (kl_written (kl_saved "<entry producer=\"1\" in=\"-1\" out=\"300\"/>"))
      ⟨kl_saved "<entry producer=\"1\" in=\"-1\" out=\"300\"/>"⟩ 7 8 9 _ _ _ "-1".data "300".data (-1) 300
      rfl rfl rfl (by decide) rfl (by decide) (by decide) (by decide) (by decide)
      (by decide)).1 (by decide),
   (invalid_inpoint_outpoint mxmlLoadString
       (kl_written (kl_saved "<entry producer=\"1\" in=\"50\" out=\"0\"/>"))
       ⟨kl_saved "<entry producer=\"1\" in=\"50\" out=\"0\"/>"⟩ 7 8 9 _ _ _ "50".data "0".data 50 0
      rfl rfl rfl (by decide) rfl (by decide) (by decide) (by decide) (by decide)
      (by decide)).2.1 (by decide) (by decide)⟩


/-- With a write buffer the value returned is one of 0, ..., 7. -/
theorem cutmarks_ret_cases (load : List Char → mxml_node_t) (s : kl_state)
    (wb : filebuffer_t) (a b c : Int) (hwb : s.kl_writebuffer = some wb) :
    0 ≤ (find_cutmarks_in_kdenlive_project_file load s a b c).ret ∧
    (find_cutmarks_in_kdenlive_project_file load s a b c).ret ≤ 7 := by
  rw [find_cutmarks_steps load s wb a b c hwb]
  simp only
  split
  · exact ⟨by norm_num, by norm_num⟩
  · split
    · exact ⟨by norm_num, by norm_num⟩
    · split
      · exact ⟨by norm_num, by norm_num⟩
      · split
        · exact ⟨by norm_num, by norm_num⟩
        · exact ⟨by norm_num, by norm_num⟩
        · split
          · exact ⟨by norm_num, by norm_num⟩
          · split <;> exact ⟨by norm_num, by norm_num⟩

/-- C7: `find_cutmarks_in_kdenlive_project_file` reports the first step that
fails, in the order 100, 1, 2, 3, 4, 5, 6, 7. It returns 100 exactly when
there is no write buffer. With a write buffer it returns 1 exactly when the
document does not load; 2 exactly when it loads and no node below its top
node is a playlist with id "playlist5"; 3 exactly when there is such a
playlist and no node below the first one is an entry with producer "1"
(whatever blank element there is); and each of 4, 5, 6, 7 only after the
steps before it have passed. -/
theorem failure_order (load : List Char → mxml_node_t) (s : kl_state) (a b c : Int) :
    ((find_cutmarks_in_kdenlive_project_file load s a b c).ret = 100
      ↔ s.kl_writebuffer = none) ∧
    ∀ wb doc pl en, s.kl_writebuffer = some wb →
      load (filebuffer__read_all_to_cstring wb) = doc →
      mxmlFindElement doc "playlist".data (some "id".data) (some "playlist5".data) = pl →
      mxmlFindElement pl "entry".data (some "producer".data) (some "1".data) = en →
      ((find_cutmarks_in_kdenlive_project_file load s a b c).ret = 1 ↔ doc = .NULL) ∧
      ((find_cutmarks_in_kdenlive_project_file load s a b c).ret = 2 ↔
        doc ≠ .NULL ∧ ∀ x ∈ mxml_descendants doc,
          mxml_find_match x "playlist".data (some "id".data) (some "playlist5".data) = false) ∧
      ((find_cutmarks_in_kdenlive_project_file load s a b c).ret = 3 ↔
        pl ≠ .NULL ∧ ∀ x ∈ mxml_descendants pl,
          mxml_find_match x "entry".data (some "producer".data) (some "1".data) = false) ∧
      ((find_cutmarks_in_kdenlive_project_file load s a b c).ret = 4 ↔
        en ≠ .NULL ∧ mxmlElementGetAttr en "in".data = none) ∧
      ((find_cutmarks_in_kdenlive_project_file load s a b c).ret = 5 ↔
        en ≠ .NULL ∧ mxmlElementGetAttr en "in".data ≠ none
          ∧ mxmlElementGetAttr en "out".data = none) ∧
      ((find_cutmarks_in_kdenlive_project_file load s a b c).ret = 6 ↔
        en ≠ .NULL ∧ ∃ strin strout, mxmlElementGetAttr en "in".data = some strin
          ∧ mxmlElementGetAttr en "out".data = some strout ∧ atoi strin < 0) ∧
      ((find_cutmarks_in_kdenlive_project_file load s a b c).ret = 7 ↔
        en ≠ .NULL ∧ ∃ strin strout, mxmlElementGetAttr en "in".data = some strin
          ∧ mxmlElementGetAttr en "out".data = some strout ∧ 0 ≤ atoi strin
          ∧ atoi strout ≤ 0) := by
  constructor
  · cases hwb : s.kl_writebuffer with
    | none => simp [find_cutmarks_in_kdenlive_project_file, hwb]
    | some wb =>
      have hr := cutmarks_ret_cases load s wb a b c hwb
      simp only [reduceCtorEq, iff_false]
      omega
  · intro wb doc pl en hwb hdoc hpl hen
    have hnull : ∀ n a v, mxmlFindElement .NULL n a v = .NULL := fun _ _ _ => rfl
    rw [← mxmlFindElement_eq_null, ← mxmlFindElement_eq_null, hpl, hen]
    by_cases hdoc0 : doc = .NULL
    · subst hdoc0
      rw [hnull] at hpl
      subst hpl
      rw [hnull] at hen
      subst hen
      rw [find_cutmarks_steps load s wb a b c hwb]
      simp [hdoc]
    by_cases hpl0 : pl = .NULL
    · subst hpl0
      rw [hnull] at hen
      subst hen
      rw [find_cutmarks_steps load s wb a b c hwb]
      simp [hdoc, hpl, hdoc0]
    by_cases hen0 : en = .NULL
    · rw [find_cutmarks_steps load s wb a b c hwb]
      simp [hdoc, hpl, hen, hdoc0, hpl0, hen0]
    rw [find_cutmarks_entry load s wb a b c doc pl en hwb hdoc hpl hpl0 hen hen0]
    cases hin : mxmlElementGetAttr en "in".data with
    | none => simp [hdoc0, hpl0, hen0]
    | some strin =>
      cases hout : mxmlElementGetAttr en "out".data with
      | none => simp [hdoc0, hpl0, hen0]
      | some strout =>
        simp only [hdoc0, hpl0, hen0]
        by_cases hi : atoi strin < 0
        · simp [hi, hen0]
        · by_cases ho : atoi strout ≤ 0
          · simp [hi, ho, hen0]
            omega
          · simp [hi, ho, hen0]


set_option maxRecDepth 8192 in
theorem failure_order_witness :
    (find_cutmarks_in_kdenlive_project_file mxmlLoadString kl_init 7 8 9).ret = 100 ∧
    (find_cutmarks_in_kdenlive_project_file mxmlLoadString
      (kl_written "<?xml version='1.0'?><mlt><playlist id=\"playlist4\"/></mlt>".data)
      7 8 9).ret = 2 ∧
    (find_cutmarks_in_kdenlive_project_file mxmlLoadString
      (kl_written (kl_saved "<blank length=\"3\"/><entry producer=\"2\" in=\"1\" out=\"2\"/>"))
      7 8 9).ret = 3 :=
  ⟨(failure_order mxmlLoadString kl_init 7 8 9).1.2 rfl,
   ((failure_order mxmlLoadString
      (kl_written "<?xml version='1.0'?><mlt><playlist id=\"playlist4\"/></mlt>".data)
      7 8 9).2 ⟨"<?xml version='1.0'?><mlt><playlist id=\"playlist4\"/></mlt>".data⟩
      _ _ _ rfl rfl rfl rfl).2.1.2 ⟨by decide, by decide⟩,
   ((failure_order mxmlLoadString
      (kl_written (kl_saved "<blank length=\"3\"/><entry producer=\"2\" in=\"1\" out=\"2\"/>"))
      7 8 9).2 ⟨kl_saved "<blank length=\"3\"/><entry producer=\"2\" in=\"1\" out=\"2\"/>"⟩
      _ _ _ rfl rfl rfl rfl).2.2.1.2 ⟨by decide, by decide⟩⟩

/-! ## Loading the descriptor -/

theorem kl_plain_spec (c : Char) (h : kl_plain c = true) :
    mxml_bad_char c = false ∧ c ≠ '<' ∧ c ≠ '>' ∧ c ≠ '&' ∧ c ≠ Char.ofNat 34 := by
  simp only [kl_plain, Bool.and_eq_true, Bool.not_eq_true', bne_iff_ne, ne_eq,
    decide_eq_true_eq] at h
  refine ⟨h.1.1.1.1.1, h.1.1.1.2, h.1.1.2, h.1.2, ?_⟩
  intro hc
  apply h.2
  rw [hc]
  decide

/-- Reading on after a first part of the input. -/
theorem mxml_run_append (st : mxml_load_t) (s r : List Char) :
    mxml_run st (s ++ r) =
      match mxml_run st s with
      | none => none
      | some st1 => mxml_run st1 r := by
  induction s generalizing st with
  | nil => rfl
  | cons c s ih =>
    simp only [List.cons_append, mxml_run]
    cases mxml_step st c with
    | none => rfl
    | some st1 => exact ih st1

/-- Plain text inside a comment is added to the comment. -/
theorem mxml_run_comment (P : List mxml_open_t) (F : mxml_node_t) (k : Nat)
    (b s r : List Char) (hs : kl_plain_text s) :
    mxml_run ⟨P, F, .comment k b⟩ (s ++ r)
      = mxml_run ⟨P, F, .comment (mxml_dashes k s) (b ++ s)⟩ r := by
  induction s generalizing k b with
  | nil => simp [mxml_dashes]
  | cons c s ih =>
    have hc := kl_plain_spec c (hs c (by simp))
    have hs1 : kl_plain_text s := fun x hx => hs x (by simp [hx])
    simp only [List.cons_append, mxml_run, mxml_step, hc.2.2.1, if_false]
    by_cases hd : c = '-'
    · simp only [hd, if_true]
      refine (ih _ _ hs1).trans ?_
      simp [mxml_dashes]
    · simp only [hd, if_false]
      refine (ih _ _ hs1).trans ?_
      simp [mxml_dashes, hd]

/-- Plain text inside a quoted attribute value is added to the value. -/
theorem mxml_run_qvalue (P : List mxml_open_t) (F : mxml_node_t) (n : mxml_open_t)
    (a v s r : List Char) (hs : kl_plain_text s) :
    mxml_run ⟨P, F, .attr_qvalue (Char.ofNat 34) n a v⟩ (s ++ r)
      = mxml_run ⟨P, F, .attr_qvalue (Char.ofNat 34) n a (v ++ s)⟩ r := by
  induction s generalizing v with
  | nil => simp
  | cons c s ih =>
    have hc := kl_plain_spec c (hs c (by simp))
    have hs1 : kl_plain_text s := fun x hx => hs x (by simp [hx])
    simp only [List.cons_append, mxml_run, mxml_step, hc.2.2.2.1, hc.2.2.2.2, if_false]
    refine (ih _ hs1).trans ?_
    simp

/-- Plain text between tags becomes text nodes of the parent. -/
theorem mxml_run_text (p : mxml_open_t) (ps : List mxml_open_t) (F : mxml_node_t) (w : Bool)
    (b s r : List Char) (hs : kl_plain_text s) :
    mxml_run ⟨p :: ps, F, .text w b⟩ (s ++ '<' :: r)
      = mxml_run ⟨{ p with children := p.children ++ mxml_words w b s } :: ps, F, .tag_name []⟩
          r := by
  induction s generalizing p w b with
  | nil =>
    simp only [List.nil_append, mxml_run, mxml_step, if_true, mxml_words]
    cases hb : b.isEmpty <;> cases w <;> simp [mxml_add]
  | cons c s ih =>
    have hc := kl_plain_spec c (hs c (by simp))
    have hs1 : kl_plain_text s := fun x hx => hs x (by simp [hx])
    simp only [List.cons_append, mxml_run, mxml_step, hc.2.1, hc.2.2.2.1, if_false, mxml_words]
    cases hsp : mxml_isspace c
    · simp only [Bool.false_eq_true, if_false]
      exact ih _ _ _ hs1
    · simp only [if_true]
      cases hb : b.isEmpty
      · simp only [Bool.false_eq_true, if_false, mxml_add]
        refine (ih _ _ _ hs1).trans ?_
        simp
      · simp only [if_true]
        exact ih _ _ _ hs1

/-- The nodes made of text are skipped by every search. -/
theorem mxml_find_walk_words (name : List Char) (attr value : Option (List Char))
    (w : Bool) (b s : List Char) (rest : List mxml_node_t) :
    mxml_find_walk name attr value (mxml_chain (mxml_words w b s ++ rest))
      = mxml_find_walk name attr value (mxml_chain rest) := by
  induction s generalizing w b with
  | nil =>
    simp only [mxml_words]
    cases b.isEmpty <;> cases w <;>
      simp [mxml_chain, mxml_find_walk, mxml_find_match]
  | cons c s ih =>
    simp only [mxml_words]
    cases mxml_isspace c
    · simp only [Bool.false_eq_true, if_false]
      exact ih _ _
    · simp only [if_true]
      cases b.isEmpty
      · simp only [Bool.false_eq_true, if_false, List.cons_append, mxml_chain, mxml_find_walk,
          mxml_find_match]
        simp [ih]
      · simp only [if_true]
        exact ih _ _


/-! ## The text of the descriptor -/

theorem format_cons (c : Char) (rest : List Char) (args : List printf_arg) (h : c ≠ '%') :
    format (c :: rest) args = c :: format rest args := by
  rw [format]
  all_goals first | exact h | (intros; simp_all)

theorem format_d (n : Char) (rest : List Char) (args : List printf_arg) :
    format ('%' :: n :: '$' :: 'd' :: rest) args = fmt_arg args n ++ format rest args := by
  rw [format]

theorem format_ld (n : Char) (rest : List Char) (args : List printf_arg) :
    format ('%' :: n :: '$' :: 'l' :: 'd' :: rest) args = fmt_arg args n ++ format rest args := by
  rw [format]

theorem format_s (n : Char) (rest : List Char) (args : List printf_arg) :
    format ('%' :: n :: '$' :: 's' :: rest) args = fmt_arg args n ++ format rest args := by
  rw [format]

theorem format_append (a b : List Char) (args : List printf_arg) (h : fmt_ok a = true) :
    format (a ++ b) args = format a args ++ format b args := by
  induction a using fmt_ok.induct with
  | case1 n rest ih =>
    rw [fmt_ok] at h
    simp only [List.cons_append, format_ld, ih h, List.append_assoc]
  | case2 n rest ih =>
    rw [fmt_ok] at h
    simp only [List.cons_append, format_d, ih h, List.append_assoc]
  | case3 n rest ih =>
    rw [fmt_ok] at h
    simp only [List.cons_append, format_s, ih h, List.append_assoc]
  | case4 rest h1 h2 h3 =>
    rw [fmt_ok] at h
    · exact absurd h (by simp)
    all_goals (intros; simp_all)
  | case5 c rest h1 h2 h3 h4 ih =>
    have hc : c ≠ '%' := by
      intro hc
      subst hc
      exact h4 rfl
    rw [fmt_ok] at h
    · simp only [List.cons_append, format_cons _ _ _ hc, ih h]
    all_goals (intros; simp_all)
  | case6 => simp [format]

theorem format_flatten (ls : List (List Char)) (args : List printf_arg)
    (h : ∀ l ∈ ls, fmt_ok l = true) :
    format ls.flatten args = (ls.map (fun l => format l args)).flatten := by
  induction ls with
  | nil => simp [format]
  | cons l ls ih =>
    simp only [List.flatten_cons, List.map_cons]
    rw [format_append l _ args (h l (by simp)), ih (fun x hx => h x (by simp [hx]))]

set_option maxRecDepth 100000 in
theorem kl_template_ok : ∀ l ∈ kl_template_lines.map String.data, fmt_ok l = true := by
  decide

/-- The descriptor, line by line. -/
theorem kl_text_lines (v1 v2 v3 v4 v5 v6 v7 : List Char) :
    kl_text v1 v2 v3 v4 v5 v6 v7 = ((kl_template_lines.map String.data).map (fun l =>
      format l [.str v1, .str v2, .str v3, .str v4, .str v5, .str v6, .str v7])).flatten := by
  unfold kl_text kl_template
  exact format_flatten _ _ kl_template_ok

theorem format_nil (args : List printf_arg) : format [] args = [] := by rw [format]

theorem mxml_run_nil (st : mxml_load_t) : mxml_run st [] = some st := rfl

theorem mxml_run_cons (st : mxml_load_t) (c : Char) (r : List Char) :
    mxml_run st (c :: r) =
      match mxml_step st c with
      | none => none
      | some st1 => mxml_run st1 r := by
  rw [mxml_run]

theorem mxml_run_flatten (st : mxml_load_t) (c : List Char) (cs : List (List Char)) :
    mxml_run st (List.flatten (c :: cs)) =
      match mxml_run st c with
      | none => none
      | some st1 => mxml_run st1 (List.flatten cs) := by
  rw [List.flatten_cons, mxml_run_append]

/-! ## The round trip -/

theorem mxml_find_walk_words_nil (name : List Char) (attr value : Option (List Char))
    (w : Bool) (b s : List Char) :
    mxml_find_walk name attr value (mxml_chain (mxml_words w b s)) = .NULL := by
  have h := mxml_find_walk_words name attr value w b s []
  rw [List.append_nil] at h
  rw [h]
  rfl

set_option maxRecDepth 100000 in
set_option maxHeartbeats 4000000 in
/-- The loader reads the head of the descriptor without an error, line by
line; with the last line after it, complete or without its closing `>`, the
document it returns holds the playlist, its entry and its blank element with
the texts put in for the conversions 1, 6 and 7. -/
theorem kl_head_parse (v1 v2 v3 v4 v5 v6 v7 : List Char) (h1 : kl_plain_text v1)
    (h2 : kl_plain_text v2) (h3 : kl_plain_text v3) (h4 : kl_plain_text v4)
    (h5 : kl_plain_text v5) (h6 : kl_plain_text v6) (h7 : kl_plain_text v7) :
    ∃ st, mxml_run ⟨[], .NULL, .text false []⟩ (kl_head v1 v2 v3 v4 v5 v6 v7) = some st ∧
      kl_found (mxml_tree st ['<', '/', 'm', 'l', 't', '>']) v1 v6 v7 ∧
      kl_found (mxml_tree st ['<', '/', 'm', 'l', 't']) v1 v6 v7 := by
  refine ⟨?st, ?run, ?f1, ?f2⟩
  case run =>
    unfold kl_head
    simp only [kl_template_lines, List.map, List.dropLast]
    iterate 91
      rw [mxml_run_flatten]
      generalize hR : List.flatten _ = R
      simp (disch := decide) only [format_cons, format_d, format_ld, format_s, format_nil,
        fmt_arg, List.get?]
      simp (disch := assumption) only [Bool.and_false, Bool.and_self, Bool.and_true,
        Bool.false_eq_true, Bool.not_false, Bool.not_true, Bool.or_false, Bool.or_self,
        Bool.or_true, Char.reduceEq, Char.reduceToNat, List.append_assoc, List.cons.injEq,
        List.cons_append, List.cons_ne_self, List.find?_isSome, List.find?_nil,
        List.find?_singleton, List.head?_cons, List.isEmpty_cons, List.isEmpty_nil, List.mem_cons,
        List.mem_singleton, List.ne_cons_self, List.nil_append, List.nil_eq, List.singleton_append,
        List.tail_cons, Nat.ofNat_pos, Nat.one_lt_ofNat, Nat.reduceAdd, Nat.reduceEqDiff,
        OfNat.zero_ne_ofNat, Option.isSome_none, Option.some.injEq, and_false, and_self, and_true,
        bne_self_eq_false, decide_False, decide_True, decide_eq_true_eq, exists_eq_left,
        exists_eq_or_imp, mxml_add, mxml_attr_done, mxml_attr_named, mxml_end_element, mxml_isquote,
        mxml_isspace, mxml_new_element, mxml_new_head, mxml_new_leaf, mxml_run_comment,
        mxml_run_cons, mxml_run_nil, mxml_run_qvalue, mxml_run_text, mxml_second_root, mxml_step,
        mxml_tag, or_self, reduceCtorEq, zero_add, ↓Char.isValue, ↓reduceIte, false_and, true_and,
        or_false, false_or, or_true, true_or, not_false_eq_true, not_true_eq_false, Bool.true_and,
        Bool.false_and, Bool.true_or, Bool.false_or, ne_eq, if_true, if_false, Nat.reduceLT,
        Nat.reduceLeDiff, Nat.lt_irrefl, Char.reduceNe, eq_self_iff_true, exists_false,
        List.mem_nil_iff, List.not_mem_nil, exists_const, and_imp]
      subst hR
    simp only [List.flatten_nil, mxml_run_nil]
    exact rfl
  all_goals
    unfold mxml_tree
    simp (disch := assumption) only [Bool.and_false, Bool.and_self, Bool.and_true,
      Bool.false_eq_true, Bool.not_false, Bool.not_true, Bool.or_false, Bool.or_self, Bool.or_true,
      Char.reduceEq, Char.reduceToNat, List.append_assoc, List.cons.injEq, List.cons_append,
      List.cons_ne_self, List.find?_isSome, List.find?_nil, List.find?_singleton, List.head?_cons,
      List.isEmpty_cons, List.isEmpty_nil, List.mem_cons, List.mem_singleton, List.ne_cons_self,
      List.nil_append, List.nil_eq, List.singleton_append, List.tail_cons, Nat.ofNat_pos,
      Nat.one_lt_ofNat, Nat.reduceAdd, Nat.reduceEqDiff, OfNat.zero_ne_ofNat, Option.isSome_none,
      Option.some.injEq, and_false, and_self, and_true, bne_self_eq_false, decide_False,
      decide_True, decide_eq_true_eq, exists_eq_left, exists_eq_or_imp, mxml_add, mxml_attr_done,
      mxml_attr_named, mxml_end_element, mxml_isquote, mxml_isspace, mxml_new_element,
      mxml_new_head, mxml_new_leaf, mxml_run_comment, mxml_run_cons, mxml_run_nil, mxml_run_qvalue,
      mxml_run_text, mxml_second_root, mxml_step, mxml_tag, or_self, reduceCtorEq, zero_add,
      ↓Char.isValue, ↓reduceIte, false_and, true_and, or_false, false_or, or_true, true_or,
      not_false_eq_true, not_true_eq_false, Bool.true_and, Bool.false_and, Bool.true_or,
      Bool.false_or, ne_eq, if_true, if_false, Nat.reduceLT, Nat.reduceLeDiff, Nat.lt_irrefl,
      Char.reduceNe, eq_self_iff_true, exists_false, List.mem_nil_iff, List.not_mem_nil,
      exists_const, and_imp, mxml_eof, mxml_result]
    unfold kl_found
    simp only [mxml_close, mxml_chain, List.append_nil]
    simp [mxmlFindElement, mxml_find_walk, mxml_find_match, mxmlElementGetAttr,
      mxml_find_walk_words_nil, mxml_find_walk_words]

theorem fmt_arg_text (args : List printf_arg) (n : Char) :
    fmt_arg (args.map printf_arg.text) n = fmt_arg args n := by
  unfold fmt_arg
  have h : ∀ (l : List printf_arg) (k : Nat),
      (l.map printf_arg.text).get? k = (l.get? k).map printf_arg.text := by
    intro l
    induction l with
    | nil => intro k; rfl
    | cons x l ih =>
      intro k
      cases k with
      | zero => rfl
      | succ k => exact ih k
  rw [h]
  cases args.get? (n.toNat - 49) with
  | none => rfl
  | some a => cases a <;> rfl

theorem format_other (c : Char) (rest : List Char) (args : List printf_arg)
    (h1 : ∀ (n : Char) (r : List Char), c = '%' → rest = n :: '$' :: 'l' :: 'd' :: r → False)
    (h2 : ∀ (n : Char) (r : List Char), c = '%' → rest = n :: '$' :: 'd' :: r → False)
    (h3 : ∀ (n : Char) (r : List Char), c = '%' → rest = n :: '$' :: 's' :: r → False) :
    format (c :: rest) args = c :: format rest args := by
  rw [format]
  · intro n r h
    cases h
    exact h1 n r rfl
  · intro n r h
    cases h
    exact h2 n r rfl
  · intro n r h
    cases h
    exact h3 n r rfl

theorem format_text (f : List Char) (args : List printf_arg) :
    format f (args.map printf_arg.text) = format f args := by
  induction f, args using format.induct with
  | case1 n rest args ih => rw [format_ld, format_ld, ih, fmt_arg_text]
  | case2 n rest args ih => rw [format_d, format_d, ih, fmt_arg_text]
  | case3 n rest args ih => rw [format_s, format_s, ih, fmt_arg_text]
  | case4 c rest args h1 h2 h3 ih =>
    rw [format_other c rest _ h1 h2 h3, format_other c rest _ h1 h2 h3, ih]
  | case5 args => rw [format_nil, format_nil]

theorem format_mem (f : List Char) (args : List printf_arg) (x : Char)
    (h : x ∈ format f args) : x ∈ f ∨ ∃ n, x ∈ fmt_arg args n := by
  induction f, args using format.induct with
  | case1 n rest args ih =>
    rw [format_ld, List.mem_append] at h
    rcases h with h | h
    · exact Or.inr ⟨n, h⟩
    · rcases ih h with h | h
      · exact Or.inl (by simp [h])
      · exact Or.inr h
  | case2 n rest args ih =>
    rw [format_d, List.mem_append] at h
    rcases h with h | h
    · exact Or.inr ⟨n, h⟩
    · rcases ih h with h | h
      · exact Or.inl (by simp [h])
      · exact Or.inr h
  | case3 n rest args ih =>
    rw [format_s, List.mem_append] at h
    rcases h with h | h
    · exact Or.inr ⟨n, h⟩
    · rcases ih h with h | h
      · exact Or.inl (by simp [h])
      · exact Or.inr h
  | case4 c rest args h1 h2 h3 ih =>
    rw [format_other c rest _ h1 h2 h3, List.mem_cons] at h
    rcases h with h | h
    · exact Or.inl (by simp [h])
    · rcases ih h with h | h
      · exact Or.inl (by simp [h])
      · exact Or.inr h
  | case5 args =>
    rw [format_nil] at h
    exact absurd h (List.not_mem_nil x)

theorem fmt_arg_mem (v1 v2 v3 v4 v5 v6 v7 : List Char) (n x : Char)
    (h : x ∈ fmt_arg [.str v1, .str v2, .str v3, .str v4, .str v5, .str v6, .str v7] n) :
    x ∈ v1 ∨ x ∈ v2 ∨ x ∈ v3 ∨ x ∈ v4 ∨ x ∈ v5 ∨ x ∈ v6 ∨ x ∈ v7 := by
  unfold fmt_arg at h
  generalize n.toNat - 49 = k at h
  rcases k with _ | _ | _ | _ | _ | _ | _ | k <;> simp [List.get?] at h <;> simp [h]

set_option maxRecDepth 100000 in
theorem kl_template_clean :
    ∀ l ∈ kl_template_lines.map String.data, ∀ c ∈ l, mxml_bad_char c = false := by
  decide

theorem kl_plain_clean (s : List Char) (h : kl_plain_text s) (x : Char) (hx : x ∈ s) :
    mxml_bad_char x = false :=
  (kl_plain_spec x (h x hx)).1

/-- No character of the descriptor ends the input of the loader. -/
theorem kl_text_clean (v1 v2 v3 v4 v5 v6 v7 : List Char) (h1 : kl_plain_text v1)
    (h2 : kl_plain_text v2) (h3 : kl_plain_text v3) (h4 : kl_plain_text v4)
    (h5 : kl_plain_text v5) (h6 : kl_plain_text v6) (h7 : kl_plain_text v7) :
    ∀ x ∈ kl_text v1 v2 v3 v4 v5 v6 v7, mxml_bad_char x = false := by
  intro x hx
  rw [kl_text_lines, List.mem_flatten] at hx
  obtain ⟨l, hl, hxl⟩ := hx
  rw [List.mem_map] at hl
  obtain ⟨f, hf, rfl⟩ := hl
  rcases format_mem f _ x hxl with h | ⟨n, h⟩
  · exact kl_template_clean f hf x h
  · rcases fmt_arg_mem v1 v2 v3 v4 v5 v6 v7 n x h with h | h | h | h | h | h | h
    · exact kl_plain_clean _ h1 x h
    · exact kl_plain_clean _ h2 x h
    · exact kl_plain_clean _ h3 x h
    · exact kl_plain_clean _ h4 x h
    · exact kl_plain_clean _ h5 x h
    · exact kl_plain_clean _ h6 x h
    · exact kl_plain_clean _ h7 x h

/-- The text `%d` writes is plain. -/
theorem fmt_d_plain (v : Int) : kl_plain_text (fmt_d v) := by
  have hdig : ∀ c, isdigit c = true → kl_plain c = true := by
    intro c hc
    simp only [isdigit, Bool.and_eq_true, decide_eq_true_eq] at hc
    have hlt : c.toNat < 128 := by omega
    have e1 : c ≠ '<' := by intro h; subst h; revert hc; decide
    have e2 : c ≠ '>' := by intro h; subst h; revert hc; decide
    have e3 : c ≠ '&' := by intro h; subst h; revert hc; decide
    have e4 : c.toNat ≠ 34 := by omega
    have e5 : ¬ c.toNat < 32 := by omega
    simp [kl_plain, mxml_bad_char, hlt, e1, e2, e3, e4, e5]
  obtain ⟨hn, _, _⟩ := fmt_nat_fuel_spec (v.natAbs + 1) v.natAbs (by omega)
  intro c hc
  unfold fmt_d at hc
  split at hc
  · rw [List.mem_cons] at hc
    rcases hc with hc | hc
    · subst hc; decide
    · exact hdig c (hn c hc)
  · exact hdig c (hn c hc)

set_option maxRecDepth 100000 in
/-- The descriptor is its head and its last line. -/
theorem kl_text_head (v1 v2 v3 v4 v5 v6 v7 : List Char) :
    kl_text v1 v2 v3 v4 v5 v6 v7
      = kl_head v1 v2 v3 v4 v5 v6 v7 ++ ['<', '/', 'm', 'l', 't', '>'] := by
  have hl : kl_template_lines = kl_template_lines.dropLast ++ ["</mlt>"] := by decide
  rw [kl_text_lines, kl_head]
  conv => lhs; rw [hl]
  simp (disch := decide) only [List.map_append, List.flatten_append, List.map_cons,
    List.map_nil, List.flatten_cons, List.flatten_nil, List.append_nil, format_cons,
    format_nil]

/-- Loading a text in which no character ends the input. -/
theorem mxmlLoadString_clean (s e : List Char) (st : mxml_load_t)
    (hs : ∀ x ∈ s ++ e, mxml_bad_char x = false)
    (hrun : mxml_run ⟨[], .NULL, .text false []⟩ s = some st) :
    mxmlLoadString (s ++ e) = mxml_tree st e := by
  have ht : (s ++ e).takeWhile (fun c => !mxml_bad_char c) = s ++ e := by
    rw [List.takeWhile_eq_self_iff]
    intro x hx
    rw [hs x hx]
    rfl
  unfold mxmlLoadString mxml_tree
  rw [ht, mxml_run_append, hrun]

/-- The descriptor, complete or without its last character, loads into a
document in which the cut marks are found. -/
theorem kl_text_load (v1 v2 v3 v4 v5 v6 v7 : List Char) (h1 : kl_plain_text v1)
    (h2 : kl_plain_text v2) (h3 : kl_plain_text v3) (h4 : kl_plain_text v4)
    (h5 : kl_plain_text v5) (h6 : kl_plain_text v6) (h7 : kl_plain_text v7)
    (cs : List Char)
    (hcs : cs = kl_text v1 v2 v3 v4 v5 v6 v7 ∨ cs = (kl_text v1 v2 v3 v4 v5 v6 v7).dropLast) :
    kl_found (mxmlLoadString cs) v1 v6 v7 := by
  obtain ⟨st, hrun, hf1, hf2⟩ := kl_head_parse v1 v2 v3 v4 v5 v6 v7 h1 h2 h3 h4 h5 h6 h7
  have hclean := kl_text_clean v1 v2 v3 v4 v5 v6 v7 h1 h2 h3 h4 h5 h6 h7
  have hsub : ∀ x ∈ (kl_text v1 v2 v3 v4 v5 v6 v7).dropLast, mxml_bad_char x = false :=
    fun x hx => hclean x (List.dropLast_subset _ hx)
  have hd : (kl_head v1 v2 v3 v4 v5 v6 v7 ++ ['<', '/', 'm', 'l', 't', '>']).dropLast
      = kl_head v1 v2 v3 v4 v5 v6 v7 ++ ['<', '/', 'm', 'l', 't'] := by
    rw [List.dropLast_append_cons]
    rfl
  rw [kl_text_head] at hclean hsub hcs
  rw [hd] at hsub hcs
  rcases hcs with h | h
  · rw [h, mxmlLoadString_clean _ _ st hclean hrun]
    exact hf1
  · rw [h, mxmlLoadString_clean _ _ st hsub hrun]
    exact hf2

/-- What the session buffer holds, read as a C string, after it is seeded
with the output of `snprintf`: the complete output, or the output without its
last character when it just fits. -/
theorem snprintf_cstring (out : List Char) (S : Nat)
    (h0 : ∀ c ∈ out, mxml_bad_char c = false) (hlen : out.length < S) :
    filebuffer__read_all_to_cstring (filebuffer__copy (filebuffer__truncate
      (filebuffer__write filebuffer__new
        (if S - 1 = 0 then [] else out.take (S - 1 - 1) ++ ['\x00']) out.length 0).1
      out.length)) = out ∨
    filebuffer__read_all_to_cstring (filebuffer__copy (filebuffer__truncate
      (filebuffer__write filebuffer__new
        (if S - 1 = 0 then [] else out.take (S - 1 - 1) ++ ['\x00']) out.length 0).1
      out.length)) = out.dropLast := by
  have hnul : ∀ c ∈ out, (c != '\x00') = true := by
    intro c hc
    have hb := h0 c hc
    rw [bne_iff_ne]
    intro h
    rw [h] at hb
    revert hb
    decide
  have hw : List.takeWhile (fun c => c != '\x00') out = out :=
    List.takeWhile_eq_self_iff.2 hnul
  simp only [filebuffer__read_all_to_cstring, filebuffer__copy, filebuffer__truncate,
    filebuffer__write, filebuffer__new, List.take_nil, List.drop_nil, List.length_nil,
    List.nil_append, List.append_nil, Nat.sub_self, List.replicate_zero, Nat.zero_sub,
    List.take_take, min_self]
  by_cases h1 : out.length + 1 < S
  · left
    rw [if_neg (by omega), List.take_of_length_le (l := out) (by omega), List.take_left' rfl, hw]
  · by_cases hS : S - 1 = 0
    · left
      have he : out = [] := List.length_eq_zero.1 (by omega)
      subst he
      simp
    · right
      have hk : S - 1 - 1 = out.length - 1 := by omega
      rw [if_neg hS, hk, ← List.dropLast_eq_take, List.take_of_length_le]
      · rw [List.takeWhile_append_of_pos]
        · simp
        · intro c hc
          exact hnul c (List.dropLast_subset _ hc)
      · simp
        omega

/-- The first rendering of the descriptor: when it does not exit, the output
fits and is stored in the cache. -/
theorem get_cache_fresh (g : fuse_ts_globals) (filename : List Char) (num_frames blanklen : Int)
    (hr : get_kdenlive_project_file_cache g kl_init filename num_frames blanklen ≠ none) :
    (format kl_template [.int g.inframe, .int num_frames, .int (num_frames - 1),
      .int g.outbyte, .str (merge_strs [g.mountpoint, ['/'], filename]),
      .int (if g.outframe < 0 then g.totalframes else g.outframe), .int blanklen]).length
        < strlen kl_template * 2 ∧
    get_kdenlive_project_file_cache g kl_init filename num_frames blanklen =
      some { kl_init with
        kl_project_file_cache := some (filebuffer__truncate (filebuffer__write filebuffer__new
          (snprintf (strlen kl_template * 2 - 1) kl_template
            [.int g.inframe, .int num_frames, .int (num_frames - 1),
             .int g.outbyte, .str (merge_strs [g.mountpoint, ['/'], filename]),
             .int (if g.outframe < 0 then g.totalframes else g.outframe), .int blanklen]).1
          (format kl_template [.int g.inframe, .int num_frames, .int (num_frames - 1),
            .int g.outbyte, .str (merge_strs [g.mountpoint, ['/'], filename]),
            .int (if g.outframe < 0 then g.totalframes else g.outframe),
            .int blanklen]).length 0).1
          (format kl_template [.int g.inframe, .int num_frames, .int (num_frames - 1),
            .int g.outbyte, .str (merge_strs [g.mountpoint, ['/'], filename]),
            .int (if g.outframe < 0 then g.totalframes else g.outframe),
            .int blanklen]).length)
        kl_project_file_cache_inframe := g.inframe
        kl_project_file_cache_outframe := g.outframe
        kl_project_file_cache_blanklen := blanklen } := by
  unfold get_kdenlive_project_file_cache at hr ⊢
  simp only [kl_init, ne_eq, not_true_eq_false, false_and, if_false, snprintf, ge_iff_le] at hr ⊢
  by_cases hlen : strlen kl_template * 2 ≤ (format kl_template [.int g.inframe, .int num_frames,
      .int (num_frames - 1), .int g.outbyte, .str (merge_strs [g.mountpoint, ['/'], filename]),
      .int (if g.outframe < 0 then g.totalframes else g.outframe), .int blanklen]).length
  · rw [if_pos hlen] at hr
    exact absurd rfl hr
  · rw [if_neg hlen]
    exact ⟨by omega, rfl⟩

/-- Opening a session without truncation right after the first rendering
copies the cache into the write buffer. -/
theorem open_seeded (g : fuse_ts_globals) (cache : filebuffer_t) (movie_path : List Char)
    (frames blanklen : Int) :
    open_kdenlive_project_file g
      { kl_init with
        kl_project_file_cache := some cache
        kl_project_file_cache_inframe := g.inframe
        kl_project_file_cache_outframe := g.outframe
        kl_project_file_cache_blanklen := blanklen } movie_path frames blanklen false =
    some { kl_init with
        kl_project_file_cache := some cache
        kl_project_file_cache_inframe := g.inframe
        kl_project_file_cache_outframe := g.outframe
        kl_project_file_cache_blanklen := blanklen
        kl_project_file_refcount := 1
        kl_writebuffer := some (filebuffer__copy cache) } := by
  unfold open_kdenlive_project_file get_kdenlive_project_file_cache
  simp [kl_init]

/-- The result of `find_cutmarks_in_kdenlive_project_file` on a document in
which everything is found. -/
theorem cutmarks_of_found (load : List Char → mxml_node_t) (s : kl_state) (wb : filebuffer_t)
    (a b c : Int) (strin strout strblank : List Char)
    (hwb : s.kl_writebuffer = some wb)
    (hf : kl_found (load (filebuffer__read_all_to_cstring wb)) strin strout strblank)
    (hi : 0 ≤ atoi strin) (ho : 0 < atoi strout) :
    find_cutmarks_in_kdenlive_project_file load s a b c =
      ⟨0, atoi strin, atoi strout, min (max (atoi strblank) 0) 45000⟩ := by
  obtain ⟨hpl, hen, hin, hout, hblank⟩ := hf
  rw [find_cutmarks_entry load s wb a b c _ _ _ hwb rfl rfl hpl rfl hen]
  simp only [hin, hout, hblank]
  rw [if_neg (by omega), if_neg (by omega)]

/-- C1, as stated, fails: with the resource path "/mnt/R&B.ts" the rendered
descriptor is not well-formed XML, and the extraction from the unedited
session returns 1 and leaves the three values as they were. -/
theorem round_trip_counterexample :
    kl_round_trip ⟨0, -1, 1000, 123456, "/mnt".data⟩ "R&B.ts".data "/mnt/R&B.ts".data
      1000 1000 0 7 8 9 = some ⟨1, 7, 8, 9⟩ := by
  decide!

/-- C1 (amended): for an inframe >= 0, a blank length in [0, 45000] and an
effective out (totalframes if outframe < 0, else outframe) > 0, all of them
`int`s, and a resource path made of plain characters (ASCII, no control
character other than tab, line feed and carriage return, none of `<`, `>`, `&`
and the double quotation mark): when the first rendering by
`get_kdenlive_project_file_cache` does not exit, opening a session with
truncate = false and the same blank length and extracting from it unedited
returns 0 with (inframe, effective out, blank length). -/
theorem round_trip (g : fuse_ts_globals) (filename movie_path : List Char)
    (num_frames frames blanklen a b c : Int)
    (hin : 0 ≤ g.inframe) (hin1 : is_int g.inframe)
    (hout : 0 < (if g.outframe < 0 then g.totalframes else g.outframe))
    (hout1 : is_int (if g.outframe < 0 then g.totalframes else g.outframe))
    (hbl : 0 ≤ blanklen) (hbl1 : blanklen ≤ 45000)
    (hpath : kl_plain_text (merge_strs [g.mountpoint, ['/'], filename]))
    (hr : get_kdenlive_project_file_cache g kl_init filename num_frames blanklen ≠ none) :
    kl_round_trip g filename movie_path num_frames frames blanklen a b c =
      some ⟨0, g.inframe, if g.outframe < 0 then g.totalframes else g.outframe, blanklen⟩ := by
  obtain ⟨hlen, hs1⟩ := get_cache_fresh g filename num_frames blanklen hr
  have hbl2 : is_int blanklen := by
    unfold is_int
    constructor <;> omega
  have htext : format kl_template [.int g.inframe, .int num_frames, .int (num_frames - 1),
      .int g.outbyte, .str (merge_strs [g.mountpoint, ['/'], filename]),
      .int (if g.outframe < 0 then g.totalframes else g.outframe), .int blanklen]
      = kl_text (fmt_d g.inframe) (fmt_d num_frames) (fmt_d (num_frames - 1))
          (fmt_d g.outbyte) (merge_strs [g.mountpoint, ['/'], filename])
          (fmt_d (if g.outframe < 0 then g.totalframes else g.outframe)) (fmt_d blanklen) := by
    unfold kl_text
    rw [← format_text]
    rfl
  have hclean := kl_text_clean _ _ _ _ _ _ _ (fmt_d_plain g.inframe) (fmt_d_plain num_frames)
    (fmt_d_plain (num_frames - 1)) (fmt_d_plain g.outbyte) hpath
    (fmt_d_plain (if g.outframe < 0 then g.totalframes else g.outframe)) (fmt_d_plain blanklen)
  have hload := kl_text_load _ _ _ _ _ _ _ (fmt_d_plain g.inframe) (fmt_d_plain num_frames)
    (fmt_d_plain (num_frames - 1)) (fmt_d_plain g.outbyte) hpath
    (fmt_d_plain (if g.outframe < 0 then g.totalframes else g.outframe)) (fmt_d_plain blanklen)
  rw [← htext] at hclean hload
  have hcs := snprintf_cstring _ _ hclean hlen
  unfold kl_round_trip
  rw [hs1]
  simp only [snprintf]
  rw [open_seeded]
  simp only []
  rw [cutmarks_of_found mxmlLoadString _ _ a b c _ _ _ rfl (hload _ hcs)]
  · rw [atoi_fmt_d _ hin1, atoi_fmt_d _ hout1, atoi_fmt_d _ hbl2, max_eq_left hbl,
      min_eq_left hbl1]
  · rw [atoi_fmt_d _ hin1]
    exact hin
  · rw [atoi_fmt_d _ hout1]
    exact hout

theorem round_trip_witness :
    kl_round_trip ⟨0, -1, 1000, 123456, "/mnt".data⟩ "uncut.ts".data "/mnt/uncut.ts".data
      1000 1000 0 7 8 9 = some ⟨0, 0, 1000, 0⟩ :=
  round_trip ⟨0, -1, 1000, 123456, "/mnt".data⟩ "uncut.ts".data "/mnt/uncut.ts".data
    1000 1000 0 7 8 9 (by decide) ⟨by decide, by decide⟩ (by decide) ⟨by decide, by decide⟩
    (by decide) (by decide) (by unfold kl_plain_text; decide) (by decide!)

/-! ## The rendering into the cache -/

theorem strlen_kl_template : strlen kl_template = 4229 := by
  unfold strlen kl_template
  decide!

/-- On a hit the state stays as it is. -/
theorem get_cache_hit (g : fuse_ts_globals) (s : kl_state) (fn : List Char) (nf b : Int)
    (h : kl_hit g s b) : get_kdenlive_project_file_cache g s fn nf b = some s := by
  unfold kl_hit at h
  unfold get_kdenlive_project_file_cache
  rw [if_pos h]

/-- Writing `len` bytes at offset 0 and truncating to `len` leaves exactly
these bytes, whatever the buffer held. -/
theorem filebuffer_store (old : filebuffer_t) (temp : List Char) (len : Nat)
    (h : len ≤ temp.length) :
    filebuffer__truncate (filebuffer__write old temp len 0).1 len = ⟨temp.take len⟩ := by
  unfold filebuffer__truncate filebuffer__write
  have hl : (temp.take len).length = len := by
    rw [List.length_take]
    omega
  simp only [List.take_zero, List.nil_append, Nat.zero_sub, List.replicate_zero, Nat.zero_add]
  rw [List.take_left' hl]

/-- The buffer `snprintf` filled holds at least `len` bytes when the output
passes the size check. -/
theorem snprintf_length (S : Nat) (fmt : List Char) (args : List printf_arg)
    (h : (format fmt args).length < S) :
    (format fmt args).length ≤ (snprintf (S - 1) fmt args).1.length := by
  unfold snprintf
  simp only
  split
  · omega
  · simp only [List.length_append, List.length_take, List.length_singleton]
    omega

/-- On a miss the descriptor is rendered: the call exits when the output does
not pass the size check, and stores the bytes and the key otherwise. -/
theorem get_cache_miss (g : fuse_ts_globals) (s : kl_state) (fn : List Char) (nf b : Int)
    (h : ¬ kl_hit g s b) :
    get_kdenlive_project_file_cache g s fn nf b =
      if strlen kl_template * 2 ≤ (kl_render g fn nf b).length then none
      else some { s with
        kl_project_file_cache := some ⟨kl_stored g fn nf b⟩
        kl_project_file_cache_inframe := g.inframe
        kl_project_file_cache_outframe := g.outframe
        kl_project_file_cache_blanklen := b } := by
  unfold kl_hit at h
  unfold get_kdenlive_project_file_cache
  rw [if_neg h]
  by_cases hlen : strlen kl_template * 2 ≤ (kl_render g fn nf b).length
  · rw [if_pos hlen]
    exact if_pos hlen
  · rw [if_neg hlen]
    refine (if_neg hlen).trans ?_
    have hst := filebuffer_store
      (match s.kl_project_file_cache with
        | none => filebuffer__new
        | some c => c)
      (snprintf (strlen kl_template * 2 - 1) kl_template (kl_args g fn nf b)).1
      (kl_render g fn nf b).length
      (snprintf_length _ _ _ (by
        have h1 := hlen
        unfold kl_render at h1
        omega))
    exact congrArg (fun c => some ({ s with
        kl_project_file_cache := some c
        kl_project_file_cache_inframe := g.inframe
        kl_project_file_cache_outframe := g.outframe
        kl_project_file_cache_blanklen := b } : kl_state)) hst

/-- The bytes stored are as many as the output is long. -/
theorem kl_stored_length (g : fuse_ts_globals) (fn : List Char) (nf b : Int)
    (h : (kl_render g fn nf b).length < strlen kl_template * 2) :
    (kl_stored g fn nf b).length = (kl_render g fn nf b).length := by
  unfold kl_stored
  rw [List.length_take]
  have h1 := snprintf_length (strlen kl_template * 2) kl_template (kl_args g fn nf b) h
  unfold kl_render
  omega

/-- An output that leaves room for the terminating NUL within the limit given
to `snprintf` is stored complete. -/
theorem kl_stored_complete (g : fuse_ts_globals) (fn : List Char) (nf b : Int)
    (h : (kl_render g fn nf b).length + 1 < strlen kl_template * 2) :
    kl_stored g fn nf b = kl_render g fn nf b := by
  unfold kl_stored snprintf
  simp only
  rw [if_neg (by omega)]
  have hk : kl_render g fn nf b = format kl_template (kl_args g fn nf b) := rfl
  rw [← hk, List.take_of_length_le (l := kl_render g fn nf b) (by omega), List.take_left' rfl]

/-- An output of exactly `size - 1` bytes passes the size check, but `snprintf`
was given the limit `size - 1`: the last byte stored is the terminating NUL,
in the place of the last character of the output. -/
theorem kl_stored_boundary (g : fuse_ts_globals) (fn : List Char) (nf b : Int)
    (h : (kl_render g fn nf b).length + 1 = strlen kl_template * 2) :
    kl_stored g fn nf b = (kl_render g fn nf b).dropLast ++ ['\x00'] := by
  have hs := strlen_kl_template
  unfold kl_stored snprintf
  simp only
  rw [if_neg (by omega)]
  have hk : kl_render g fn nf b = format kl_template (kl_args g fn nf b) := rfl
  have hn : strlen kl_template * 2 - 1 - 1 = (kl_render g fn nf b).length - 1 := by omega
  rw [← hk, hn, ← List.dropLast_eq_take, List.take_of_length_le]
  simp only [List.length_append, List.length_dropLast, List.length_singleton]
  omega

/-- The rendering does not look at the refcount. -/
theorem get_cache_refcount (g : fuse_ts_globals) (s : kl_state) (fn : List Char) (nf b r : Int) :
    get_kdenlive_project_file_cache g { s with kl_project_file_refcount := r } fn nf b =
      match get_kdenlive_project_file_cache g s fn nf b with
      | none => none
      | some s1 => some { s1 with kl_project_file_refcount := r } := by
  by_cases h : kl_hit g s b
  · have h1 : kl_hit g { s with kl_project_file_refcount := r } b := h
    rw [get_cache_hit g s fn nf b h, get_cache_hit g _ fn nf b h1]
  · have h1 : ¬ kl_hit g { s with kl_project_file_refcount := r } b := h
    rw [get_cache_miss g s fn nf b h, get_cache_miss g _ fn nf b h1]
    by_cases hlen : strlen kl_template * 2 ≤ (kl_render g fn nf b).length
    · simp only [if_pos hlen]
    · simp only [if_neg hlen]

/-- After a call that returns there is a cache. -/
theorem get_cache_some (g : fuse_ts_globals) (s s1 : kl_state) (fn : List Char) (nf b : Int)
    (h : get_kdenlive_project_file_cache g s fn nf b = some s1) :
    ∃ c, s1.kl_project_file_cache = some c := by
  by_cases hit : kl_hit g s b
  · rw [get_cache_hit g s fn nf b hit] at h
    obtain rfl := Option.some.inj h
    exact Option.ne_none_iff_exists'.1 hit.1
  · rw [get_cache_miss g s fn nf b hit] at h
    by_cases hlen : strlen kl_template * 2 ≤ (kl_render g fn nf b).length
    · rw [if_pos hlen] at h
      exact Option.noConfusion h
    · rw [if_neg hlen] at h
      obtain rfl := Option.some.inj h
      exact ⟨_, rfl⟩

/-! ## Opening and writing -/

/-- An `open` at a refcount > 0 only counts: it returns before it looks at
`truncate` or at the write buffer. -/
theorem open_again (g : fuse_ts_globals) (s : kl_state) (mp : List Char) (f b : Int)
    (t : Bool) (h : 0 < s.kl_project_file_refcount) :
    open_kdenlive_project_file g s mp f b t =
      some { s with kl_project_file_refcount := s.kl_project_file_refcount + 1 } := by
  unfold open_kdenlive_project_file
  simp only
  rw [if_pos (by omega)]

/-- What `filebuffer__write` leaves in the buffer: the bytes written, at the
offset, in a content that has grown as far as needed. -/
theorem filebuffer__write_spec (fb : filebuffer_t) (data : List Char) (n off : Nat)
    (hn : n ≤ data.length) :
    (filebuffer__write fb data n off).2 = n ∧
    (filebuffer__write fb data n off).1.content.length = max fb.content.length (off + n) ∧
    ((filebuffer__write fb data n off).1.content.drop off).take n = data.take n := by
  unfold filebuffer__write
  refine ⟨rfl, ?_, ?_⟩
  · simp only [List.length_append, List.length_take, List.length_replicate, List.length_drop]
    omega
  · have hpre : (fb.content.take off
        ++ List.replicate (off - fb.content.length) '\x00').length = off := by
      simp only [List.length_append, List.length_take, List.length_replicate]
      omega
    have hlen : (data.take n).length = n := by
      rw [List.length_take]
      omega
    simp only [List.append_assoc]
    rw [← List.append_assoc, List.drop_left' hpre, List.take_left' hlen]

/-- C11: at the failing input the code does not clear the buffer. After
`open (truncate); write ("abc", 3, 0); open (truncate)` from the initial
state the refcount is 2 and the write buffer still holds "abc": the second
`open` returns at `kl_project_file_refcount > 1`, before the branch that
truncates an existing buffer. -/
theorem reopen_truncate_keeps_content :
    kl_run kl_init
        [.open ⟨0, -1, 1000, 123456, "/mnt".data⟩ "/uncut.ts".data 1000 0 true,
          .write "abc".data 3 0,
          .open ⟨0, -1, 1000, 123456, "/mnt".data⟩ "/uncut.ts".data 1000 0 true]
      = some { kl_init with kl_project_file_refcount := 2, kl_writebuffer := some ⟨"abc".data⟩ } := by
  decide

/-- C12: when `open_kdenlive_project_file` takes the refcount from 0 to 1 in
a state without a write buffer, the new write buffer is empty if `truncate`
is set; otherwise, when `get_kdenlive_project_file_cache` returns for the
same globals and arguments, its content is the content of the cache that
call returns (and `open` exits exactly when that call exits). -/
theorem first_open_seeds (g : fuse_ts_globals) (s : kl_state) (movie_path : List Char)
    (frames blanklen : Int)
    (h0 : s.kl_project_file_refcount = 0) (hb : s.kl_writebuffer = none) :
    (∃ s2 wb, open_kdenlive_project_file g s movie_path frames blanklen true = some s2 ∧
      s2.kl_project_file_refcount = 1 ∧ s2.kl_writebuffer = some wb ∧ wb.content = []) ∧
    (match get_kdenlive_project_file_cache g s movie_path frames blanklen with
     | none => open_kdenlive_project_file g s movie_path frames blanklen false = none
     | some s1 =>
       ∃ c s2 wb, s1.kl_project_file_cache = some c ∧
         open_kdenlive_project_file g s movie_path frames blanklen false = some s2 ∧
         s2.kl_project_file_refcount = 1 ∧ s2.kl_writebuffer = some wb ∧
         wb.content = c.content ∧ s2.kl_project_file_cache = some c) := by
  constructor
  · have ho : open_kdenlive_project_file g s movie_path frames blanklen true =
        some { s with kl_project_file_refcount := 1, kl_writebuffer := some filebuffer__new } := by
      unfold open_kdenlive_project_file
      simp only [h0, hb]
      rfl
    exact ⟨_, filebuffer__new, ho, rfl, rfl, rfl⟩
  · have hr := get_cache_refcount g s movie_path frames blanklen (s.kl_project_file_refcount + 1)
    cases hg : get_kdenlive_project_file_cache g s movie_path frames blanklen with
    | none =>
      rw [hg] at hr
      unfold open_kdenlive_project_file
      simp only [h0, hb] at hr ⊢
      rw [if_neg (by decide)]
      simp only [Bool.false_eq_true, if_false]
      rw [hr]
    | some s1 =>
      rw [hg] at hr
      obtain ⟨c, hc⟩ := get_cache_some g s s1 movie_path frames blanklen hg
      have ho : open_kdenlive_project_file g s movie_path frames blanklen false =
          some { s1 with kl_project_file_refcount := 1, kl_writebuffer := some (filebuffer__copy c) } := by
        unfold open_kdenlive_project_file
        simp only [h0, hb] at hr ⊢
        rw [if_neg (by decide)]
        simp only [Bool.false_eq_true, if_false]
        rw [hr]
        simp only [hc]
        rfl
      exact ⟨c, _, filebuffer__copy c, hc, ho, rfl, rfl, rfl, hc⟩

theorem first_open_seeds_witness :
    (∃ s2 wb, open_kdenlive_project_file ⟨0, -1, 1000, 123456, "/mnt".data⟩ kl_init
        "/uncut.ts".data 1000 0 true = some s2 ∧
      s2.kl_project_file_refcount = 1 ∧ s2.kl_writebuffer = some wb ∧ wb.content = []) ∧
    (match get_kdenlive_project_file_cache ⟨0, -1, 1000, 123456, "/mnt".data⟩ kl_init
        "/uncut.ts".data 1000 0 with
     | none => open_kdenlive_project_file ⟨0, -1, 1000, 123456, "/mnt".data⟩ kl_init
        "/uncut.ts".data 1000 0 false = none
     | some s1 =>
       ∃ c s2 wb, s1.kl_project_file_cache = some c ∧
         open_kdenlive_project_file ⟨0, -1, 1000, 123456, "/mnt".data⟩ kl_init
           "/uncut.ts".data 1000 0 false = some s2 ∧
         s2.kl_project_file_refcount = 1 ∧ s2.kl_writebuffer = some wb ∧
         wb.content = c.content ∧ s2.kl_project_file_cache = some c) :=
  first_open_seeds ⟨0, -1, 1000, 123456, "/mnt".data⟩ kl_init "/uncut.ts".data 1000 0 rfl rfl

/-- C13, counterexample: after `close (); open (truncate)` from the initial
state the refcount is 0 and there is a write buffer, and a write of "abc" does
not fail with -EACCES: it returns 3 and changes the buffer. -/
theorem write_not_open_counterexample :
    ∃ s, kl_run kl_init
        [.close, .open ⟨0, -1, 1000, 123456, "/mnt".data⟩ "/uncut.ts".data 1000 0 true] = some s
      ∧ s.kl_project_file_refcount = 0
      ∧ (write_kdenlive_project_file s "abc".data 3 0).2 = 3
      ∧ (write_kdenlive_project_file s "abc".data 3 0).2 ≠ EACCES_neg
      ∧ (write_kdenlive_project_file s "abc".data 3 0).1.kl_writebuffer = some ⟨"abc".data⟩ :=
  ⟨_, rfl, by decide, by decide, by decide, by decide⟩

/-- C13, amended: `write_kdenlive_project_file` tests the write buffer, not
the refcount. In every state reachable from the initial state by `open`,
`write`, `truncate` and `close` calls, for a `size` other than the value of
-EACCES as a `size_t`: it returns -EACCES exactly when there is no write
buffer, and then leaves the state as it is; with a write buffer, at whatever
refcount, it returns `size`, leaves the refcount as it is, and afterwards the
buffer holds the `size` bytes written at [offset, offset + size) and its
length is max (old length, offset + size). At refcount 0 there is no write
buffer when no prefix of the sequence holds more closes than opens, and at a
refcount > 0 there is one. -/
theorem write_not_open (cs : List kl_call) (s : kl_state) (buffer : List Char)
    (size offset : Nat) (h : kl_run kl_init cs = some s) (hsize : size ≤ buffer.length)
    (hcode : size ≠ EACCES_neg) :
    ((write_kdenlive_project_file s buffer size offset).2 = EACCES_neg ↔
      s.kl_writebuffer = none) ∧
    (s.kl_writebuffer = none →
      write_kdenlive_project_file s buffer size offset = (s, EACCES_neg)) ∧
    (∀ wb, s.kl_writebuffer = some wb →
      ∃ wb1, write_kdenlive_project_file s buffer size offset
          = ({ s with kl_writebuffer := some wb1 }, size) ∧
        wb1.content.length = max wb.content.length (offset + size) ∧
        (wb1.content.drop offset).take size = buffer.take size) ∧
    (kl_balanced cs → s.kl_project_file_refcount = 0 →
      write_kdenlive_project_file s buffer size offset = (s, EACCES_neg)) ∧
    (0 < s.kl_project_file_refcount →
      ∃ wb wb1, s.kl_writebuffer = some wb ∧
        write_kdenlive_project_file s buffer size offset
          = ({ s with kl_writebuffer := some wb1 }, size) ∧
        (write_kdenlive_project_file s buffer size offset).2 ≠ EACCES_neg ∧
        wb1.content.length = max wb.content.length (offset + size) ∧
        (wb1.content.drop offset).take size = buffer.take size) := by
  have hnone : s.kl_writebuffer = none →
      write_kdenlive_project_file s buffer size offset = (s, EACCES_neg) := by
    intro hb
    unfold write_kdenlive_project_file
    rw [hb]
  have hsome : ∀ wb, s.kl_writebuffer = some wb →
      ∃ wb1, write_kdenlive_project_file s buffer size offset
          = ({ s with kl_writebuffer := some wb1 }, size) ∧
        wb1.content.length = max wb.content.length (offset + size) ∧
        (wb1.content.drop offset).take size = buffer.take size := by
    intro wb hwb
    obtain ⟨h1, h2, h3⟩ := filebuffer__write_spec wb buffer size offset hsize
    refine ⟨(filebuffer__write wb buffer size offset).1, ?_, h2, h3⟩
    unfold write_kdenlive_project_file
    rw [hwb]
    simp only [h1]
  refine ⟨⟨fun hret => ?_, fun hb => ?_⟩, hnone, hsome, ?_, ?_⟩
  · by_contra hne
    obtain ⟨wb, hwb⟩ := Option.ne_none_iff_exists'.1 hne
    obtain ⟨wb1, hw, _, _⟩ := hsome wb hwb
    rw [hw] at hret
    exact hcode hret
  · rw [hnone hb]
  · intro hbal h0
    have hex := (run_exact cs kl_init s h (by decide) (by decide) (by
      intro p hp
      have := hbal p hp
      simp [kl_init]
      omega)).1
    apply hnone
    by_contra hne
    have := hex.1 hne
    omega
  · intro hpos
    have hne := run_alive cs kl_init s h (by decide) hpos
    obtain ⟨wb, hwb⟩ := Option.ne_none_iff_exists'.1 hne
    obtain ⟨wb1, hw, h2, h3⟩ := hsome wb hwb
    refine ⟨wb, wb1, hwb, hw, ?_, h2, h3⟩
    rw [hw]
    exact hcode

theorem write_not_open_witness :
    kl_run kl_init
        [.open ⟨0, -1, 1000, 123456, "/mnt".data⟩ "/uncut.ts".data 1000 0 true,
          .write "abcdef".data 6 0] =
      some { kl_init with kl_project_file_refcount := 1,
                          kl_writebuffer := some ⟨"abcdef".data⟩ } ∧
    ∃ wb wb1, (some ⟨"abcdef".data⟩ : Option filebuffer_t) = some wb ∧
      write_kdenlive_project_file
        { kl_init with kl_project_file_refcount := 1,
                       kl_writebuffer := some ⟨"abcdef".data⟩ } "XYZ".data 3 5
        = ({ kl_init with kl_project_file_refcount := 1, kl_writebuffer := some wb1 }, 3) ∧
      (write_kdenlive_project_file
        { kl_init with kl_project_file_refcount := 1,
                       kl_writebuffer := some ⟨"abcdef".data⟩ } "XYZ".data 3 5).2 ≠ EACCES_neg ∧
      wb1.content.length = max wb.content.length (5 + 3) ∧
      (wb1.content.drop 5).take 3 = "XYZ".data.take 3 :=
  ⟨rfl, (write_not_open
    [.open ⟨0, -1, 1000, 123456, "/mnt".data⟩ "/uncut.ts".data 1000 0 true,
      .write "abcdef".data 6 0]
    { kl_init with kl_project_file_refcount := 1, kl_writebuffer := some ⟨"abcdef".data⟩ }
    "XYZ".data 3 5 rfl (by decide) (by decide)).2.2.2.2 (by decide)⟩

/-- C19: for every sequence of `open`, `write`, `truncate` and `close` calls
in which no prefix holds more closes than opens, every state along the
sequence (the state after each of its prefixes, from the initial state) has
the refcount opens - closes, which is >= 0, and a write buffer exactly when
the refcount is > 0. -/
theorem balanced_session (cs : List kl_call) (hb : kl_balanced cs) :
    ∀ p ∈ cs.inits, ∀ s, kl_run kl_init p = some s →
      s.kl_project_file_refcount = (kl_opens p : Int) - (kl_closes p : Int) ∧
      0 ≤ s.kl_project_file_refcount ∧
      (s.kl_writebuffer ≠ none ↔ 0 < s.kl_project_file_refcount) := by
  intro p hp s h
  have hpre : p <+: cs := (List.mem_inits p cs).1 hp
  have hbp : ∀ q ∈ p.inits, (kl_closes q : Int) ≤ kl_opens q + kl_init.kl_project_file_refcount := by
    intro q hq
    have hq1 : q <+: p := (List.mem_inits q p).1 hq
    have := hb q ((List.mem_inits q cs).2 (hq1.trans hpre))
    simp [kl_init]
    omega
  have h1 := run_refcount p kl_init s h
  have h2 := run_exact p kl_init s h (by decide) (by decide) hbp
  simp [kl_init] at h1
  exact ⟨h1, h2.2, h2.1⟩

theorem balanced_session_witness :
    kl_run kl_init
        [.open ⟨0, -1, 1000, 123456, "/mnt".data⟩ "/uncut.ts".data 1000 0 true,
          .open ⟨0, -1, 1000, 123456, "/mnt".data⟩ "/uncut.ts".data 1000 0 true,
          .write "abc".data 3 0, .close]
      = some { kl_init with kl_project_file_refcount := 1, kl_writebuffer := some ⟨"abc".data⟩ } ∧
    (1 : Int) = ((2 : Nat) : Int) - ((1 : Nat) : Int) ∧ (0 : Int) ≤ 1 ∧
    ((some ⟨"abc".data⟩ : Option filebuffer_t) ≠ none ↔ (0 : Int) < 1) :=
  ⟨rfl, balanced_session
    [.open ⟨0, -1, 1000, 123456, "/mnt".data⟩ "/uncut.ts".data 1000 0 true,
      .open ⟨0, -1, 1000, 123456, "/mnt".data⟩ "/uncut.ts".data 1000 0 true,
      .write "abc".data 3 0, .close]
    (by unfold kl_balanced; decide)
    [.open ⟨0, -1, 1000, 123456, "/mnt".data⟩ "/uncut.ts".data 1000 0 true,
      .open ⟨0, -1, 1000, 123456, "/mnt".data⟩ "/uncut.ts".data 1000 0 true,
      .write "abc".data 3 0, .close]
    (by decide)
    { kl_init with kl_project_file_refcount := 1, kl_writebuffer := some ⟨"abc".data⟩ } rfl⟩

/-- C20: a text that is no number is not rejected as such. With `strin` and
`strout` the attributes in and out of the entry with producer "1" of the
playlist with id "playlist5": when `strin` has no leading integer (as "abc"
and the empty string) and `strout` reads as o > 0, the function returns 0
with inframe 0 and outframe o; when `strout` has no leading integer it reads
as 0 and the function returns 7 and puts nothing out, for a `strin` without
a leading integer as for every `strin` that reads as i >= 0. -/
theorem non_numeric_in_out (load : List Char → mxml_node_t) (s : kl_state)
    (wb : filebuffer_t) (a b c : Int) (doc pl en : mxml_node_t)
    (strin strout : List Char)
    (hwb : s.kl_writebuffer = some wb)
    (hdoc : load (filebuffer__read_all_to_cstring wb) = doc)
    (hpl : mxmlFindElement doc "playlist".data (some "id".data) (some "playlist5".data) = pl)
    (hpl0 : pl ≠ .NULL)
    (hen : mxmlFindElement pl "entry".data (some "producer".data) (some "1".data) = en)
    (hen0 : en ≠ .NULL)
    (hin : mxmlElementGetAttr en "in".data = some strin)
    (hout : mxmlElementGetAttr en "out".data = some strout) :
    (no_leading_integer strin → 0 < atoi strout →
      (find_cutmarks_in_kdenlive_project_file load s a b c).ret = 0 ∧
      (find_cutmarks_in_kdenlive_project_file load s a b c).inframe = 0 ∧
      (find_cutmarks_in_kdenlive_project_file load s a b c).outframe = atoi strout) ∧
    (no_leading_integer strin → no_leading_integer strout →
      find_cutmarks_in_kdenlive_project_file load s a b c = ⟨7, a, b, c⟩) ∧
    (0 ≤ atoi strin → no_leading_integer strout →
      find_cutmarks_in_kdenlive_project_file load s a b c = ⟨7, a, b, c⟩) := by
  rw [find_cutmarks_entry load s wb a b c doc pl en hwb hdoc hpl hpl0 hen hen0]
  simp only [hin, hout]
  refine ⟨fun h1 h2 => ?_, fun h1 h2 => ?_, fun h1 h2 => ?_⟩
  · rw [atoi_no_leading_integer strin h1, if_neg (by omega), if_neg (by omega)]
    exact ⟨rfl, rfl, rfl⟩
  · rw [atoi_no_leading_integer strin h1, atoi_no_leading_integer strout h2,
      if_neg (by omega), if_pos (by omega)]
  · rw [atoi_no_leading_integer strout h2, if_neg (by omega), if_pos (by omega)]

set_option maxRecDepth 8192 in
theorem non_numeric_in_out_witness :
    ((find_cutmarks_in_kdenlive_project_file mxmlLoadString
      (kl_written (kl_saved "<entry producer=\"1\" in=\"abc\" out=\"300\"/>"))
      7 8 9).ret = 0 ∧
    (find_cutmarks_in_kdenlive_project_file mxmlLoadString
      (kl_written (kl_saved "<entry producer=\"1\" in=\"abc\" out=\"300\"/>"))
      7 8 9).inframe = 0 ∧
    (find_cutmarks_in_kdenlive_project_file mxmlLoadString
      (kl_written (kl_saved "<entry producer=\"1\" in=\"abc\" out=\"300\"/>"))
      7 8 9).outframe = atoi "300".data) ∧
    find_cutmarks_in_kdenlive_project_file mxmlLoadString
      (kl_written (kl_saved "<entry producer=\"1\" in=\"\" out=\"abc\"/>"))
      7 8 9 = ⟨7, 7, 8, 9⟩ :=
  ⟨(non_numeric_in_out mxmlLoadString
      (kl_written (kl_saved "<entry producer=\"1\" in=\"abc\" out=\"300\"/>"))
      ⟨kl_saved "<entry producer=\"1\" in=\"abc\" out=\"300\"/>"⟩ 7 8 9 _ _ _
      "abc".data "300".data
      rfl rfl rfl (by decide) rfl (by decide) (by decide) (by decide)).1
      (by show ∀ c ∈ (['a', 'b', 'c'] : List Char).head?, isdigit c = false; decide)
      (by decide),
   (non_numeric_in_out mxmlLoadString
      (kl_written (kl_saved "<entry producer=\"1\" in=\"\" out=\"abc\"/>"))
      ⟨kl_saved "<entry producer=\"1\" in=\"\" out=\"abc\"/>"⟩ 7 8 9 _ _ _
      [] "abc".data
      rfl rfl rfl (by decide) rfl (by decide) (by decide) (by decide)).2.1
      (by show ∀ c ∈ ([] : List Char).head?, isdigit c = false; decide)
      (by show ∀ c ∈ (['a', 'b', 'c'] : List Char).head?, isdigit c = false; decide)⟩

/-! ## The cache -/

/-- After a call that returns the stored key is the key of the call. -/
theorem get_cache_key (g : fuse_ts_globals) (s s1 : kl_state) (fn : List Char) (nf b : Int)
    (h : get_kdenlive_project_file_cache g s fn nf b = some s1) :
    s1.kl_project_file_cache_inframe = g.inframe ∧
    s1.kl_project_file_cache_outframe = g.outframe ∧
    s1.kl_project_file_cache_blanklen = b := by
  by_cases hit : kl_hit g s b
  · rw [get_cache_hit g s fn nf b hit] at h
    obtain rfl := Option.some.inj h
    exact hit.2
  · rw [get_cache_miss g s fn nf b hit] at h
    by_cases hlen : strlen kl_template * 2 ≤ (kl_render g fn nf b).length
    · rw [if_pos hlen] at h
      exact Option.noConfusion h
    · rw [if_neg hlen] at h
      obtain rfl := Option.some.inj h
      exact ⟨rfl, rfl, rfl⟩

/-- C14: a call for keyB on the cache a call for keyA left (keyA and keyB
differ in inframe, outframe or blanklen) renders anew when the output for
keyB passes the size check: the cache then holds exactly the bytes the
rendering for keyB stores, as many as its output is long and the same as in
an empty cache, whatever the cache held for keyA (the complete output when it
is shorter than `size - 1`), and the stored key is keyB. -/
theorem cache_rerender (gA gB : fuse_ts_globals) (s0 : kl_state) (fnA fnB : List Char)
    (nfA blA nfB blB : Int)
    (hne : ¬ (gA.inframe = gB.inframe ∧ gA.outframe = gB.outframe ∧ blA = blB))
    (hfit : (kl_render gB fnB nfB blB).length < strlen kl_template * 2) :
    (match get_kdenlive_project_file_cache gA s0 fnA nfA blA with
     | none => none
     | some sA => get_kdenlive_project_file_cache gB sA fnB nfB blB) =
    (match get_kdenlive_project_file_cache gA s0 fnA nfA blA with
     | none => none
     | some sA => some { sA with
        kl_project_file_cache := some ⟨kl_stored gB fnB nfB blB⟩
        kl_project_file_cache_inframe := gB.inframe
        kl_project_file_cache_outframe := gB.outframe
        kl_project_file_cache_blanklen := blB }) ∧
    get_kdenlive_project_file_cache gB kl_init fnB nfB blB =
      some { kl_init with
        kl_project_file_cache := some ⟨kl_stored gB fnB nfB blB⟩
        kl_project_file_cache_inframe := gB.inframe
        kl_project_file_cache_outframe := gB.outframe
        kl_project_file_cache_blanklen := blB } ∧
    (kl_stored gB fnB nfB blB).length = (kl_render gB fnB nfB blB).length ∧
    ((kl_render gB fnB nfB blB).length + 1 < strlen kl_template * 2 →
      kl_stored gB fnB nfB blB = kl_render gB fnB nfB blB) := by
  refine ⟨?_, ?_, kl_stored_length gB fnB nfB blB hfit, kl_stored_complete gB fnB nfB blB⟩
  · cases hA : get_kdenlive_project_file_cache gA s0 fnA nfA blA with
    | none => rfl
    | some sA =>
      obtain ⟨k1, k2, k3⟩ := get_cache_key gA s0 sA fnA nfA blA hA
      have hm : ¬ kl_hit gB sA blB := by
        intro hit
        exact hne ⟨k1.symm.trans hit.2.1, k2.symm.trans hit.2.2.1, k3.symm.trans hit.2.2.2⟩
      simp only
      rw [get_cache_miss gB sA fnB nfB blB hm, if_neg (by omega)]
  · have hm : ¬ kl_hit gB kl_init blB := fun hit => hit.1 rfl
    rw [get_cache_miss gB kl_init fnB nfB blB hm, if_neg (by omega)]

theorem cache_rerender_witness :
    ((match get_kdenlive_project_file_cache ⟨100000, -1, 100000, 123456, "/mnt".data⟩ kl_init
        "uncut.ts".data 100000 45000 with
     | none => none
     | some sA => get_kdenlive_project_file_cache ⟨0, 500, 1000, 123456, "/mnt".data⟩ sA
        "uncut.ts".data 1000 0) =
    (match get_kdenlive_project_file_cache ⟨100000, -1, 100000, 123456, "/mnt".data⟩ kl_init
        "uncut.ts".data 100000 45000 with
     | none => none
     | some sA => some { sA with
        kl_project_file_cache :=
          some ⟨kl_stored ⟨0, 500, 1000, 123456, "/mnt".data⟩ "uncut.ts".data 1000 0⟩
        kl_project_file_cache_inframe := 0
        kl_project_file_cache_outframe := 500
        kl_project_file_cache_blanklen := 0 })) ∧
    kl_stored ⟨0, 500, 1000, 123456, "/mnt".data⟩ "uncut.ts".data 1000 0
      = kl_render ⟨0, 500, 1000, 123456, "/mnt".data⟩ "uncut.ts".data 1000 0 ∧
    (kl_render ⟨0, 500, 1000, 123456, "/mnt".data⟩ "uncut.ts".data 1000 0).length
      < (kl_render ⟨100000, -1, 100000, 123456, "/mnt".data⟩ "uncut.ts".data 100000 45000).length ∧
    get_kdenlive_project_file_cache ⟨100000, -1, 100000, 123456, "/mnt".data⟩ kl_init
        "uncut.ts".data 100000 45000 ≠ none :=
  ⟨(cache_rerender ⟨100000, -1, 100000, 123456, "/mnt".data⟩ ⟨0, 500, 1000, 123456, "/mnt".data⟩
      kl_init "uncut.ts".data "uncut.ts".data 100000 45000 1000 0 (by decide) (by decide!)).1,
   (cache_rerender ⟨100000, -1, 100000, 123456, "/mnt".data⟩ ⟨0, 500, 1000, 123456, "/mnt".data⟩
      kl_init "uncut.ts".data "uncut.ts".data 100000 45000 1000 0 (by decide) (by decide!)).2.2.2
      (by decide!),
   by decide!, by decide!⟩

/-- C15, counterexample: with identical inputs (the same globals, the file
name "b.ts", 1000 frames, blank length 0) the call returns different content
in two cache states: in the initial state it renders the descriptor for
"b.ts"; in the state an earlier call for "a.ts" with the same key left, it is
a hit and returns the descriptor rendered for "a.ts". -/
theorem render_deterministic_counterexample :
    ((get_kdenlive_project_file_cache ⟨0, -1, 1000, 123456, "/mnt".data⟩ kl_init
        "a.ts".data 1000 0).bind
      (fun s => get_kdenlive_project_file_cache ⟨0, -1, 1000, 123456, "/mnt".data⟩ s
        "b.ts".data 1000 0)).map (fun s => s.kl_project_file_cache)
    ≠ (get_kdenlive_project_file_cache ⟨0, -1, 1000, 123456, "/mnt".data⟩ kl_init
        "b.ts".data 1000 0).map (fun s => s.kl_project_file_cache) := by
  decide!

/-- C15, amended: the key of the cache is (inframe, outframe, blanklen) only.
In any two cache states in which the call is a miss (no cache, or another
stored key), identical inputs give the same outcome: both calls exit or both
return byte-identical content, the bytes the rendering stores for these
inputs, whatever the cache held before. On a hit the call returns the state
as it is, with the content cached for the key, whatever the other inputs
are. -/
theorem render_deterministic (g : fuse_ts_globals) (s s' : kl_state) (fn : List Char)
    (nf b : Int) (hm : ¬ kl_hit g s b) (hm' : ¬ kl_hit g s' b) :
    (get_kdenlive_project_file_cache g s fn nf b).map (fun t => t.kl_project_file_cache)
      = (get_kdenlive_project_file_cache g s' fn nf b).map (fun t => t.kl_project_file_cache) ∧
    (∀ t, get_kdenlive_project_file_cache g s fn nf b = some t →
      t.kl_project_file_cache = some ⟨kl_stored g fn nf b⟩) ∧
    (∀ t : kl_state, kl_hit g t b → get_kdenlive_project_file_cache g t fn nf b = some t) := by
  rw [get_cache_miss g s fn nf b hm, get_cache_miss g s' fn nf b hm']
  refine ⟨?_, ?_, fun t ht => get_cache_hit g t fn nf b ht⟩
  · by_cases hlen : strlen kl_template * 2 ≤ (kl_render g fn nf b).length
    · rw [if_pos hlen, if_pos hlen]
    · rw [if_neg hlen, if_neg hlen]
      exact rfl
  · intro t ht
    by_cases hlen : strlen kl_template * 2 ≤ (kl_render g fn nf b).length
    · rw [if_pos hlen] at ht
      exact Option.noConfusion ht
    · rw [if_neg hlen] at ht
      obtain rfl := Option.some.inj ht
      rfl

theorem render_deterministic_witness :
    (get_kdenlive_project_file_cache ⟨0, -1, 1000, 123456, "/mnt".data⟩ kl_init
        "b.ts".data 1000 0).map (fun t => t.kl_project_file_cache)
      = (get_kdenlive_project_file_cache ⟨0, -1, 1000, 123456, "/mnt".data⟩
          { kl_init with
            kl_project_file_cache := some ⟨"an older and longer content".data⟩
            kl_project_file_cache_inframe := 7
            kl_project_file_cache_outframe := -1
            kl_project_file_cache_blanklen := 0 }
          "b.ts".data 1000 0).map (fun t => t.kl_project_file_cache) :=
  (render_deterministic ⟨0, -1, 1000, 123456, "/mnt".data⟩ kl_init
    { kl_init with
      kl_project_file_cache := some ⟨"an older and longer content".data⟩
      kl_project_file_cache_inframe := 7
      kl_project_file_cache_outframe := -1
      kl_project_file_cache_blanklen := 0 }
    "b.ts".data 1000 0 (by unfold kl_hit; decide) (by unfold kl_hit; decide)).1

/-- C17: on a miss `get_kdenlive_project_file_cache` exits (`err (124)`)
exactly when the formatted length is >= 2 * strlen (kl_template), and the
content it stores otherwise is as long as the formatted output, so shorter
than 2 * strlen (kl_template), however long the resource path is. A hit leaves
the cache as it is: in a state whose cached content is shorter than
2 * strlen (kl_template), as in the initial state and after every call, the
cached content is shorter than that after every call that returns. -/
theorem size_bound (g : fuse_ts_globals) (s : kl_state) (fn : List Char) (nf b : Int)
    (hinv : ∀ c, s.kl_project_file_cache = some c →
      c.content.length < strlen kl_template * 2) :
    (¬ kl_hit g s b →
      (get_kdenlive_project_file_cache g s fn nf b = none ↔
        strlen kl_template * 2 ≤ (kl_render g fn nf b).length)) ∧
    (¬ kl_hit g s b → ∀ s1, get_kdenlive_project_file_cache g s fn nf b = some s1 →
      ∃ c, s1.kl_project_file_cache = some c ∧
        c.content.length = (kl_render g fn nf b).length) ∧
    (∀ s1, get_kdenlive_project_file_cache g s fn nf b = some s1 →
      ∃ c, s1.kl_project_file_cache = some c ∧ c.content.length < strlen kl_template * 2) := by
  have hmiss : ¬ kl_hit g s b → ∀ s1, get_kdenlive_project_file_cache g s fn nf b = some s1 →
      (kl_render g fn nf b).length < strlen kl_template * 2 ∧
      ∃ c, s1.kl_project_file_cache = some c ∧
        c.content.length = (kl_render g fn nf b).length := by
    intro hm s1 h
    rw [get_cache_miss g s fn nf b hm] at h
    by_cases hlen : strlen kl_template * 2 ≤ (kl_render g fn nf b).length
    · rw [if_pos hlen] at h
      exact Option.noConfusion h
    · rw [if_neg hlen] at h
      obtain rfl := Option.some.inj h
      exact ⟨by omega, _, rfl, kl_stored_length g fn nf b (by omega)⟩
  refine ⟨fun hm => ?_, fun hm s1 h => (hmiss hm s1 h).2, fun s1 h => ?_⟩
  · rw [get_cache_miss g s fn nf b hm]
    by_cases hlen : strlen kl_template * 2 ≤ (kl_render g fn nf b).length
    · rw [if_pos hlen]
      exact ⟨fun _ => hlen, fun _ => rfl⟩
    · rw [if_neg hlen]
      exact ⟨fun h => Option.noConfusion h, fun h => absurd h hlen⟩
  · by_cases hit : kl_hit g s b
    · rw [get_cache_hit g s fn nf b hit] at h
      obtain rfl := Option.some.inj h
      obtain ⟨c, hc⟩ := Option.ne_none_iff_exists'.1 hit.1
      exact ⟨c, hc, hinv c hc⟩
    · obtain ⟨hlt, c, hc, hl⟩ := hmiss hit s1 h
      exact ⟨c, hc, by omega⟩

theorem size_bound_witness :
    (get_kdenlive_project_file_cache ⟨0, -1, 1000, 123456, "/mnt".data⟩ kl_init
        (List.replicate 1500 'a') 1000 0 = none ↔
      strlen kl_template * 2
        ≤ (kl_render ⟨0, -1, 1000, 123456, "/mnt".data⟩ (List.replicate 1500 'a') 1000 0).length) ∧
    ∀ s1, get_kdenlive_project_file_cache ⟨0, -1, 1000, 123456, "/mnt".data⟩ kl_init
        "uncut.ts".data 1000 0 = some s1 →
      ∃ c, s1.kl_project_file_cache = some c ∧ c.content.length < strlen kl_template * 2 :=
  ⟨(size_bound ⟨0, -1, 1000, 123456, "/mnt".data⟩ kl_init (List.replicate 1500 'a') 1000 0
      (by intro c hc; cases hc)).1 (by unfold kl_hit; decide),
   (size_bound ⟨0, -1, 1000, 123456, "/mnt".data⟩ kl_init "uncut.ts".data 1000 0
      (by intro c hc; cases hc)).2.2⟩

/-- C18: at the failing input the stored content is not the complete
formatted template. With the mount point "/mnt" followed by seven directories
of 200 characters, the file name "ab.ts", 1000 frames and the blank length 10
the formatted length is 8457 = 2 * strlen (kl_template) - 1: the call passes
the check `len >= size` and returns, and the 8457 bytes it stores are the
first 8456 characters of the output and a NUL byte, in the place of the last
character `>`. -/
theorem boundary_rendering_truncated :
    (kl_render ⟨0, -1, 1000, 123456,
        "/mnt".data ++ (List.replicate 7 ('/' :: List.replicate 200 'd')).flatten⟩
      "ab.ts".data 1000 10).length = 8457 ∧
    strlen kl_template * 2 - 1 = 8457 ∧
    get_kdenlive_project_file_cache ⟨0, -1, 1000, 123456,
        "/mnt".data ++ (List.replicate 7 ('/' :: List.replicate 200 'd')).flatten⟩ kl_init
      "ab.ts".data 1000 10 =
      some { kl_init with
        kl_project_file_cache := some ⟨(kl_render ⟨0, -1, 1000, 123456,
            "/mnt".data ++ (List.replicate 7 ('/' :: List.replicate 200 'd')).flatten⟩
          "ab.ts".data 1000 10).dropLast ++ ['\x00']⟩
        kl_project_file_cache_inframe := 0
        kl_project_file_cache_outframe := -1
        kl_project_file_cache_blanklen := 10 } ∧
    (kl_render ⟨0, -1, 1000, 123456,
        "/mnt".data ++ (List.replicate 7 ('/' :: List.replicate 200 'd')).flatten⟩
      "ab.ts".data 1000 10).getLast? = some '>' := by
  have hl : (kl_render ⟨0, -1, 1000, 123456,
        "/mnt".data ++ (List.replicate 7 ('/' :: List.replicate 200 'd')).flatten⟩
      "ab.ts".data 1000 10).length = 8457 := by decide!
  have hs := strlen_kl_template
  refine ⟨hl, by omega, ?_, by decide!⟩
  rw [get_cache_miss _ _ _ _ _ (fun hit => hit.1 rfl), if_neg (by omega),
    kl_stored_boundary _ _ _ _ (by omega)]

set_option maxRecDepth 100000 in
/-- The formatted template, cut at the playlist with id "playlist5" and
before the last line. -/
theorem format_kl_template (args : List printf_arg) :
    format kl_template args =
      kl_before args ++ kl_playlist5 (fmt_arg args '7') (fmt_arg args '1') (fmt_arg args '6')
        ++ (kl_after args ++ ['<', '/', 'm', 'l', 't', '>']) := by
  have hl : kl_template_lines = kl_template_lines.take 29 ++
      ([" <playlist id=\"playlist5\">", "  <blank length=\"%7$d\"/>",
        "  <entry in=\"%1$d\" out=\"%6$d\" producer=\"1\"/>", " </playlist>"] ++
       ((kl_template_lines.drop 33).dropLast ++ ["</mlt>"])) := by decide
  have h1 : fmt_ok ((kl_template_lines.take 29).map String.data).flatten = true := by decide!
  have h2 : fmt_ok (([" <playlist id=\"playlist5\">", "  <blank length=\"%7$d\"/>",
        "  <entry in=\"%1$d\" out=\"%6$d\" producer=\"1\"/>", " </playlist>"] : List String).map
          String.data).flatten = true := by decide!
  have h3 : fmt_ok (((kl_template_lines.drop 33).dropLast).map String.data).flatten = true := by
    decide!
  unfold kl_template kl_before kl_after kl_playlist5
  conv => lhs; rw [hl]
  rw [List.map_append, List.flatten_append, format_append _ _ _ h1,
    List.map_append, List.flatten_append, format_append _ _ _ h2,
    List.map_append, List.flatten_append, format_append _ _ _ h3]
  simp (disch := decide) only [List.map_cons, List.map_nil, List.flatten_cons, List.flatten_nil,
    List.append_nil, List.cons_append, List.nil_append, List.append_assoc, format_cons, format_d,
    format_nil]

/-- The rendering, with the texts of its numbers put in. -/
theorem kl_render_text (g : fuse_ts_globals) (fn : List Char) (nf b : Int) :
    kl_render g fn nf b =
      kl_text (fmt_d g.inframe) (fmt_d nf) (fmt_d (nf - 1)) (fmt_d g.outbyte)
        (merge_strs [g.mountpoint, ['/'], fn])
        (fmt_d (if g.outframe < 0 then g.totalframes else g.outframe)) (fmt_d b) := by
  unfold kl_render kl_text kl_args
  rw [← format_text]
  rfl

/-- The C string of the bytes stored: the complete output, or the output
without its last character when it just fits. -/
theorem kl_stored_cstring (g : fuse_ts_globals) (fn : List Char) (nf b : Int)
    (hclean : ∀ c ∈ kl_render g fn nf b, mxml_bad_char c = false)
    (hfit : (kl_render g fn nf b).length < strlen kl_template * 2) :
    filebuffer__read_all_to_cstring ⟨kl_stored g fn nf b⟩ = kl_render g fn nf b ∨
    filebuffer__read_all_to_cstring ⟨kl_stored g fn nf b⟩ = (kl_render g fn nf b).dropLast := by
  have hnul : ∀ c ∈ kl_render g fn nf b, (c != '\x00') = true := by
    intro c hc
    have hb := hclean c hc
    rw [bne_iff_ne]
    intro h
    rw [h] at hb
    revert hb
    decide
  unfold filebuffer__read_all_to_cstring
  by_cases h1 : (kl_render g fn nf b).length + 1 < strlen kl_template * 2
  · left
    rw [kl_stored_complete g fn nf b h1]
    exact List.takeWhile_eq_self_iff.2 hnul
  · right
    rw [kl_stored_boundary g fn nf b (by omega)]
    simp only
    rw [List.takeWhile_append_of_pos]
    · simp
    · intro c hc
      exact hnul c (List.dropLast_subset _ hc)

/-- C16: every rendering (a call of `get_kdenlive_project_file_cache` that is
a miss and passes the size check) stores a descriptor in which the playlist
with id "playlist5" reads `<blank length="B"/>` and
`<entry in="I" out="O" producer="1"/>`, with I the decimal text of inframe, B
of blanklen, and O of totalframes when outframe < 0 and of outframe
otherwise; and when the resource path is plain text, these are the attributes
of the blank element and of the entry with producer "1" that
`mxmlFindElement` finds in the playlist "playlist5" of the loaded document. -/
theorem effective_out (g : fuse_ts_globals) (s : kl_state) (fn : List Char) (nf b : Int)
    (hm : ¬ kl_hit g s b)
    (hfit : (kl_render g fn nf b).length < strlen kl_template * 2) :
    ∃ s1 c rest, get_kdenlive_project_file_cache g s fn nf b = some s1 ∧
      s1.kl_project_file_cache = some c ∧
      c.content = kl_before (kl_args g fn nf b)
        ++ kl_playlist5 (fmt_d b) (fmt_d g.inframe)
            (fmt_d (if g.outframe < 0 then g.totalframes else g.outframe))
        ++ rest ∧
      (kl_plain_text (merge_strs [g.mountpoint, ['/'], fn]) →
        kl_found (mxmlLoadString (filebuffer__read_all_to_cstring c)) (fmt_d g.inframe)
          (fmt_d (if g.outframe < 0 then g.totalframes else g.outframe)) (fmt_d b)) := by
  have hsplit : kl_render g fn nf b = kl_before (kl_args g fn nf b)
        ++ kl_playlist5 (fmt_d b) (fmt_d g.inframe)
            (fmt_d (if g.outframe < 0 then g.totalframes else g.outframe))
        ++ (kl_after (kl_args g fn nf b) ++ ['<', '/', 'm', 'l', 't', '>']) := by
    unfold kl_render
    rw [format_kl_template]
    rfl
  have hrest : ∃ rest, kl_stored g fn nf b = kl_before (kl_args g fn nf b)
        ++ kl_playlist5 (fmt_d b) (fmt_d g.inframe)
            (fmt_d (if g.outframe < 0 then g.totalframes else g.outframe))
        ++ rest := by
    by_cases h1 : (kl_render g fn nf b).length + 1 < strlen kl_template * 2
    · exact ⟨_, (kl_stored_complete g fn nf b h1).trans hsplit⟩
    · refine ⟨kl_after (kl_args g fn nf b) ++ ['<', '/', 'm', 'l', 't'] ++ ['\x00'], ?_⟩
      have hd : ∀ X : List Char, (X ++ ['<', '/', 'm', 'l', 't', '>']).dropLast
          = X ++ ['<', '/', 'm', 'l', 't'] := by
        intro X
        rw [List.dropLast_append_cons]
        rfl
      rw [kl_stored_boundary g fn nf b (by omega), hsplit, ← List.append_assoc, hd]
      simp only [List.append_assoc]
  obtain ⟨rest, hrest⟩ := hrest
  have hget := get_cache_miss g s fn nf b hm
  rw [if_neg (by omega)] at hget
  refine ⟨_, ⟨kl_stored g fn nf b⟩, rest, hget, rfl, hrest, ?_⟩
  · intro hpath
    have hclean := kl_text_clean _ _ _ _ _ _ _ (fmt_d_plain g.inframe) (fmt_d_plain nf)
      (fmt_d_plain (nf - 1)) (fmt_d_plain g.outbyte) hpath
      (fmt_d_plain (if g.outframe < 0 then g.totalframes else g.outframe)) (fmt_d_plain b)
    have hload := kl_text_load _ _ _ _ _ _ _ (fmt_d_plain g.inframe) (fmt_d_plain nf)
      (fmt_d_plain (nf - 1)) (fmt_d_plain g.outbyte) hpath
      (fmt_d_plain (if g.outframe < 0 then g.totalframes else g.outframe)) (fmt_d_plain b)
    rw [← kl_render_text] at hclean hload
    exact hload _ (kl_stored_cstring g fn nf b hclean hfit)

theorem effective_out_witness :
    ∃ s1 c rest, get_kdenlive_project_file_cache ⟨0, -1, 1000, 123456, "/mnt".data⟩ kl_init
        "uncut.ts".data 1000 0 = some s1 ∧
      s1.kl_project_file_cache = some c ∧
      c.content = kl_before (kl_args ⟨0, -1, 1000, 123456, "/mnt".data⟩ "uncut.ts".data 1000 0)
        ++ kl_playlist5 "0".data "0".data "1000".data ++ rest ∧
      (kl_plain_text (merge_strs ["/mnt".data, ['/'], "uncut.ts".data]) →
        kl_found (mxmlLoadString (filebuffer__read_all_to_cstring c)) "0".data "1000".data
          "0".data) :=
  effective_out ⟨0, -1, 1000, 123456, "/mnt".data⟩ kl_init "uncut.ts".data 1000 0
    (by unfold kl_hit; decide) (by decide!)

end FuseTsKdenlive
